import Mathlib

/-!
# Verification of the kin-go client submission engine

A shallow embedding of the payment submission and resolution engine of the
`client` package (client.go, webhook.go).  Network calls are modelled by an
environment of prescribed responses consumed in order; every call is recorded
in a trace so that claims about "no RPC issued" or "exactly one resubmission"
are statable.  The client's mutable kin version, the token-account cache and
the Go slice backing `EarnBatch.Earns` (shared between the caller and the
callee) are explicit state.

Cryptographic primitives (SHA-224, HMAC, protobuf serialization, base64) are
modelled as abstract functions supplied by the environment: no claim depends
on their internals, only on which inputs they are applied to.
-/

namespace KinGo

/-- An ed25519 public key, abstracted to an identifier.  (`kin.PublicKey`) -/
abbrev Key := Nat

/-- An ed25519 private key (`kin.PrivateKey`): the seed and the derived public
key.  Equality of `PrivateKey` models Go's `bytes.Equal` on the raw key. -/
structure PrivateKey where
  seed : Nat
  pub : Nat
deriving DecidableEq, Repr

/-- `kin.PrivateKey.Public()`. -/
def PrivateKey.Public (k : PrivateKey) : Key := k.pub

/-- An invoice (`commonpb.Invoice`), abstracted to an identifier: the engine
never inspects invoice contents, it only serializes and hashes them. -/
abbrev Invoice := Nat

/-- An invoice list as handed to protobuf marshalling.  Entries are `Option`
because the Go code builds `commonpb.InvoiceList` slices whose elements are
pointers that may be nil (e.g. one slot per earn). -/
abbrev InvoiceList := List (Option Invoice)

/-- The closed error taxonomy.  Go represents all of these as `error` values:
sentinel errors (`ErrBadNonce`, `ErrAccountDoesNotExist`, ...), gRPC status
errors, wrapped errors and plain `errors.New` messages. -/
inductive Err where
  | grpcStatus (code : Nat)
  | wrap (msg : String) (e : Err)
  | message (msg : String)
  | accountDoesNotExist
  | badNonce
  | transactionRejected
  | noSubsidizer
  | noTokenAccounts
  | invoiceError (opIndex : Nat) (reason : Nat)
deriving DecidableEq, Repr

/-- `codes.FailedPrecondition`. -/
def grpcFailedPrecondition : Nat := 9

/-- `codes.Unknown`: what `status.Code` reports for a non-gRPC error. -/
def grpcUnknown : Nat := 2

/-- `status.Code(err)`: the gRPC code carried by a status error; `Unknown`
for every other error (wrapping with `errors.Wrap` loses the status). -/
def statusCode : Err → Nat
  | .grpcStatus c => c
  | _ => grpcUnknown

/-- A per-invoice error as it appears on the wire
(`commonpb.InvoiceError`): operation index and reason code. -/
structure ProtoInvoiceError where
  opIndex : Nat
  reason : Nat
deriving DecidableEq, Repr

/-- Modelled from the spec: `invoiceErrorFromProto` (defined in this
repository outside src/) maps a wire-level per-invoice error to the
`InvoiceError{reason}` member of the closed error taxonomy. -/
def invoiceErrorFromProto (e : ProtoInvoiceError) : Err :=
  .invoiceError e.opIndex e.reason

/-- Modelled from the spec: the structured error info of a submission result
(top-level transaction error, one error per operation / per payment). -/
structure TxErrors where
  txError : Option Err
  opErrors : List Err
  paymentErrors : List Err
deriving DecidableEq, Repr

/-- Modelled from the spec: `SubmitTransactionResult` (declared in this
repository outside src/): transaction identifier, structured error info and
the list of per-invoice errors. -/
structure SubmitTransactionResult where
  id : List Nat
  errors : TxErrors
  invoiceErrors : List ProtoInvoiceError
deriving DecidableEq, Repr

/-- The Go zero value `SubmitTransactionResult{}`. -/
def SubmitTransactionResult.empty : SubmitTransactionResult :=
  ⟨[], ⟨none, [], []⟩, []⟩

/-- The part of `transactionpbv4.GetServiceConfigResponse` the client reads:
the subsidizer account (absent when the service configures none). -/
structure ServiceConfig where
  subsidizerAccount : Option Key
deriving DecidableEq, Repr

/-- Modelled from the spec: the balance+sequence pair returned by
`GetStellarAccountInfo`. -/
structure StellarAccountInfo where
  balance : Int
  sequenceNumber : Int
deriving DecidableEq, Repr

/-- Boundary model of the agora-common `kin.Memo`: the decoded content of the
32-byte structured memo (format version, transaction type, app index,
foreign key / invoice-list hash). -/
structure KinMemo where
  version : Nat
  txType : Int
  appIndex : Nat
  foreignKey : List Nat
deriving DecidableEq, Repr

/-- Boundary model of agora-common `kin.NewMemo`: fails when the format
version exceeds 7 or the foreign key exceeds 29 bytes; otherwise packs the
fields.  All call sites in client.go use version 1 and a 28-byte key. -/
def newMemo (v : Nat) (t : Int) (appIndex : Nat) (fk : List Nat) :
    Except Err KinMemo :=
  if 7 < v ∨ 29 < fk.length then .error (.message "invalid memo")
  else .ok ⟨v, t, appIndex, fk⟩

/-- `kin.TransactionTypeEarn`. -/
def transactionTypeEarn : Int := 1

/-- A stellar asset: native (Kin 3) or the 4-letter KIN credit asset with its
issuer (Kin 2). -/
inductive Asset where
  | native
  | alphaNum4 (issuer : Key)
deriving DecidableEq, Repr

/-- A stellar payment operation body. -/
structure PaymentOp where
  destination : Key
  amount : Int
  asset : Asset
deriving DecidableEq, Repr

/-- A stellar operation: optional source account plus a payment op (the only
operation kind client.go emits). -/
structure Operation where
  sourceAccount : Option Key
  paymentOp : PaymentOp
deriving DecidableEq, Repr

/-- A stellar transaction memo: absent, text, or a hash memo carrying a packed
kin memo. -/
inductive XdrMemo where
  | noMemo
  | text (s : String)
  | hash (m : KinMemo)
deriving DecidableEq, Repr

/-- A stellar transaction envelope (`xdr.TransactionEnvelope`), with the
fields client.go sets.  A signature is modelled by the signing key. -/
structure Envelope where
  sourceAccount : Key
  fee : Nat
  seqNum : Int
  operations : List Operation
  memo : XdrMemo
  signatures : List PrivateKey
deriving DecidableEq, Repr

/-- A Solana instruction as emitted by client.go: a memo-program instruction
(either a verbatim text memo or the base64 encoding of a packed kin memo) or
a token transfer. -/
inductive Instruction where
  | memoText (s : String)
  | memoKin (m : KinMemo)
  | transfer (source dest owner : Key) (amount : Nat)
deriving DecidableEq, Repr

/-- A Solana transaction: fee payer, instructions, blockhash, signatures. -/
structure SolanaTx where
  payer : Key
  instructions : List Instruction
  blockhash : Nat
  signatures : List Key
deriving DecidableEq, Repr

/-- Truncation of an `int64` product (Go arithmetic wraps two's complement). -/
def int64wrap (i : Int) : Int := (i + 2 ^ 63) % 2 ^ 64 - 2 ^ 63

/-- Go's `uint64(x)` conversion of an `int64`. -/
def uint64of (i : Int) : Nat := (i % 2 ^ 64).toNat

/-- A `Payment`. -/
structure Payment where
  sender : PrivateKey
  destination : Key
  paymentType : Int
  quarks : Int
  channel : Option PrivateKey
  memo : String
  invoice : Option Invoice
  dedupeId : List Nat
deriving DecidableEq, Repr

/-- An `Earn`. -/
structure Earn where
  destination : Key
  quarks : Int
  invoice : Option Invoice
deriving DecidableEq, Repr, Inhabited

/-- An `EarnBatch`.  `earns` is a Go slice value: a reference into the heap of
backing arrays (`St.heap`), shared between the caller and the client, so that
writes through it are visible to the caller. -/
structure EarnBatch where
  sender : PrivateKey
  channel : Option PrivateKey
  memo : String
  earns : Nat
  dedupeId : List Nat
deriving DecidableEq, Repr

/-- An `EarnError`: index of the failed earn plus its error. -/
structure EarnError where
  earnIndex : Nat
  error : Err
deriving DecidableEq, Repr

/-- An `EarnBatchResult`. -/
structure EarnBatchResult where
  txId : List Nat
  txError : Option Err
  earnErrors : List EarnError
deriving DecidableEq, Repr

/-- The Go zero value `EarnBatchResult{}`. -/
def EarnBatchResult.empty : EarnBatchResult := ⟨[], none, []⟩

/-- `AccountResolution`. -/
inductive AccountResolution where
  | exact
  | preferred
deriving DecidableEq, Repr

/-- `solanaOpts`: per-call options for Kin 4 requests. -/
structure SolanaOpts where
  commitment : Nat
  accountResolution : AccountResolution
  destResolution : AccountResolution
  subsidizer : Option PrivateKey
deriving DecidableEq, Repr

/-- The static part of `clientOpts` (the mutable `kinVersion` lives in `St`). -/
structure ClientOpts where
  maxRetries : Nat
  maxSequenceRetries : Nat
  whitelistKey : Option PrivateKey
  appIndex : Nat
  kinIssuer : Key
  defaultCommitment : Nat
deriving DecidableEq, Repr

/-- `tokenAccountEntry`: creation time plus resolved token accounts. -/
structure TokenAccountEntry where
  created : Nat
  accounts : List Key
deriving DecidableEq, Repr

/-- One network call, as recorded in the trace. -/
inductive Call where
  | getStellarAccountInfo (account : Key)
  | submitStellar (envelope : Envelope)
  | getServiceConfig
  | getRecentBlockhash
  | submitSolana (tx : SolanaTx) (il : Option InvoiceList) (commitment : Nat)
      (dedupeId : List Nat)
  | resolveAccounts (account : Key)
deriving DecidableEq, Repr

/-- The environment: the abstract cryptographic functions, the wall clock, and
one stream of prescribed responses per RPC, consumed in call order.  A
response is the Go-style `(value, error)` pair the internal client returns.
`resolveResponses` uses `Except` because the internal client returns no
accounts alongside an error. -/
structure Env where
  serializeInvoiceList : InvoiceList → List Nat
  sha224 : List Nat → List Nat
  now : Nat
  stellarAccountInfos : List (StellarAccountInfo × Option Err)
  stellarSubmits : List (SubmitTransactionResult × Option Err)
  serviceConfigs : List (ServiceConfig × Option Err)
  blockhashes : List (Nat × Option Err)
  solanaSubmits : List (SubmitTransactionResult × Option Err)
  resolveResponses : List (Except Err (List Key))

/-- Full client state: the environment, the mutable kin version, the
token-account cache (an association list; the LRU container's capacity-500
eviction is out of scope per the spec), the heap of earn-slice backing
arrays, and the trace of network calls made so far. -/
structure St where
  env : Env
  kinVersion : Nat
  cache : List (Key × TokenAccountEntry)
  heap : List (List Earn)
  trace : List Call

/-- The state monad every client operation runs in. -/
def M (α : Type) : Type := St → α × St

instance : Monad M where
  pure a := fun st => (a, st)
  bind x f := fun st => f (x st).1 (x st).2

def getKinVersion : M Nat := fun st => (st.kinVersion, st)

def setKinVersion (v : Nat) : M Unit := fun st => ((), { st with kinVersion := v })

def getNow : M Nat := fun st => (st.env.now, st)

/-- Read the backing array of an earn slice. -/
def heapGet (ref : Nat) : M (List Earn) := fun st => (st.heap.getD ref [], st)

/-- `batch.Earns[idx].Destination = dest`: writes through the shared backing
array, visible to every holder of the slice. -/
def heapSetEarnDest (ref idx : Nat) (dest : Key) : M Unit := fun st =>
  let earns := st.heap.getD ref []
  let earns' := earns.set idx { earns.getD idx default with destination := dest }
  ((), { st with heap := st.heap.set ref earns' })

/-- First-match lookup in the cache association list. -/
def cacheLookup (cache : List (Key × TokenAccountEntry)) (k : Key) :
    Option TokenAccountEntry :=
  match cache with
  | [] => none
  | (k', e) :: rest => if k' = k then some e else cacheLookup rest k

/-- Remove a key from the cache association list. -/
def cacheErase (cache : List (Key × TokenAccountEntry)) (k : Key) :
    List (Key × TokenAccountEntry) :=
  match cache with
  | [] => []
  | (k', e) :: rest =>
    if k' = k then cacheErase rest k else (k', e) :: cacheErase rest k

def cacheGet (k : Key) : M (Option TokenAccountEntry) := fun st =>
  (cacheLookup st.cache k, st)

def cacheRemove (k : Key) : M Unit := fun st =>
  ((), { st with cache := cacheErase st.cache k })

/-- `accountCache.Add`: stores the entry with the current time, replacing any
previous entry for the key. -/
def cacheAdd (k : Key) (accounts : List Key) : M Unit := fun st =>
  ((), { st with cache := (k, ⟨st.env.now, accounts⟩) :: cacheErase st.cache k })

/-- The error produced if a response stream runs dry (a model artifact; every
theorem's environment supplies enough responses). -/
def noResponse : Err := .message "model: response stream exhausted"

def getStellarAccountInfo (account : Key) : M (StellarAccountInfo × Option Err) :=
  fun st =>
    let st' := { st with trace := st.trace ++ [Call.getStellarAccountInfo account] }
    match st.env.stellarAccountInfos with
    | [] => ((⟨0, 0⟩, some noResponse), st')
    | r :: rest =>
      (r, { st' with env := { st'.env with stellarAccountInfos := rest } })

def submitStellarTransaction (envelope : Envelope) (_il : Option InvoiceList) :
    M (SubmitTransactionResult × Option Err) := fun st =>
  let st' := { st with trace := st.trace ++ [Call.submitStellar envelope] }
  match st.env.stellarSubmits with
  | [] => ((SubmitTransactionResult.empty, some noResponse), st')
  | r :: rest => (r, { st' with env := { st'.env with stellarSubmits := rest } })

def getServiceConfig : M (ServiceConfig × Option Err) := fun st =>
  let st' := { st with trace := st.trace ++ [Call.getServiceConfig] }
  match st.env.serviceConfigs with
  | [] => ((⟨none⟩, some noResponse), st')
  | r :: rest => (r, { st' with env := { st'.env with serviceConfigs := rest } })

def getRecentBlockhash : M (Nat × Option Err) := fun st =>
  let st' := { st with trace := st.trace ++ [Call.getRecentBlockhash] }
  match st.env.blockhashes with
  | [] => ((0, some noResponse), st')
  | r :: rest => (r, { st' with env := { st'.env with blockhashes := rest } })

def submitSolanaTransaction (tx : SolanaTx) (il : Option InvoiceList)
    (commitment : Nat) (dedupeId : List Nat) :
    M (SubmitTransactionResult × Option Err) := fun st =>
  let st' := { st with trace := st.trace ++ [Call.submitSolana tx il commitment dedupeId] }
  match st.env.solanaSubmits with
  | [] => ((SubmitTransactionResult.empty, some noResponse), st')
  | r :: rest => (r, { st' with env := { st'.env with solanaSubmits := rest } })

/-- Modelled from the spec: `InternalClient.ResolveTokenAccounts` (declared in
this repository outside src/) queries the network and returns the ordered
token account list, or an error with no accounts. -/
def internalResolveTokenAccounts (account : Key) : M (List Key × Option Err) :=
  fun st =>
    let st' := { st with trace := st.trace ++ [Call.resolveAccounts account] }
    match st.env.resolveResponses with
    | [] => (([], some noResponse), st')
    | .error e :: rest =>
      (([], some e), { st' with env := { st'.env with resolveResponses := rest } })
    | .ok as :: rest =>
      ((as, none), { st' with env := { st'.env with resolveResponses := rest } })

/-- The attempt loop of the retry primitive: `n` is the number of further
attempts allowed after the current one.  The loop state `σ` models the local
variables the Go closure captures and mutates. -/
def retryGo {σ : Type} (retriable : Err → Bool)
    (f : σ → M (σ × Option Err)) : σ → Nat → M (σ × Option Err)
  | s, 0 => f s
  | s, n + 1 => fun st =>
    match (f s st).1 with
    | (s', none) => ((s', none), (f s st).2)
    | (s', some e) =>
      if retriable e then retryGo retriable f s' n (f s st).2
      else ((s', some e), (f s st).2)

/-- Modelled from the spec: agora-common `retry.Retry` with
`retry.Limit(limit)` and `retry.RetriableErrors`: the function is attempted,
then re-attempted while it keeps failing with a retriable error, for at most
`limit` attempts in total (always at least one); the outcome of the last
attempt is returned. -/
def retryRetry {σ : Type} (limit : Nat) (retriable : Err → Bool)
    (f : σ → M (σ × Option Err)) (s : σ) : M (σ × Option Err) :=
  retryGo retriable f s (limit - 1)

/-- One attempt of the token-account resolution loop (the closure of lines
1107-1117): query the internal client; an empty list is the retriable
`errNoTokenAccounts` signal, any other error stops the loop. -/
def resolveStep (account : Key) (_s : List Key) : M (List Key × Option Err) :=
  fun st =>
    let q := internalResolveTokenAccounts account st
    let out : List Key × Option Err :=
      match q.1.2 with
      | some e => (q.1.1, some e)
      | none =>
        if q.1.1.length = 0 then (q.1.1, some .noTokenAccounts)
        else (q.1.1, none)
    (out, q.2)

/-- `client.resolveTokenAccounts`: serve a cache entry younger than 5 minutes;
otherwise evict it, query the network with an empty-result bounded retry,
cache a non-empty result, and always report success. -/
def resolveTokenAccounts (c : ClientOpts) (account : Key) :
    M (List Key × Option Err) := do
  let cached ← cacheGet account
  let served : Option (List Key) ←
    match cached with
    | some entry => do
      let now ← getNow
      if now - entry.created < 5 * 60 then pure (some entry.accounts)
      else do
        cacheRemove account
        pure none
    | none => pure none
  match served with
  | some accounts => pure (accounts, none)
  | none => do
    let (accounts, _err) ←
      retryRetry c.maxRetries (· == Err.noTokenAccounts) (resolveStep account) []
    if accounts.length = 0 then pure (([] : List Key), none)
    else do
      cacheAdd account accounts
      pure (accounts, none)

/-- Boundary model of `stellar.SignEnvelope`: appends a decorated signature by
the given key to the envelope (which Go mutates in place) and returns it. -/
def signEnvelope (envelope : Envelope) (signer : PrivateKey) : Envelope :=
  { envelope with signatures := envelope.signatures ++ [signer] }

/-- One signing pass of the XDR submission loop: sign with every signer, then
co-sign with the whitelist key when it is configured and is not already among
the signers (compared on the raw private key, `bytes.Equal`). -/
def signingRound (c : ClientOpts) (signers : List PrivateKey)
    (envelope : Envelope) : Envelope :=
  let e1 := signers.foldl signEnvelope envelope
  match c.whitelistKey with
  | none => e1
  | some wl => if signers.contains wl then e1 else signEnvelope e1 wl

/-- One attempt of the XDR nonce-retry loop (the closure of lines
1010-1051): stamp `sequence + offset`, re-sign, submit; a BadNonce outcome
increments the offset and is retriable; any other outcome ends the loop.
The envelope accumulates signatures across attempts, as in Go, where the
closure keeps mutating the captured envelope. -/
def xdrStep (c : ClientOpts) (signers : List PrivateKey)
    (il : Option InvoiceList) (seq : Int)
    (s : SubmitTransactionResult × Int × Envelope) :
    M ((SubmitTransactionResult × Int × Envelope) × Option Err) := fun st =>
  let offset := s.2.1
  let signedEnv := signingRound c signers { s.2.2 with seqNum := seq + offset }
  let q := submitStellarTransaction signedEnv il st
  let out : (SubmitTransactionResult × Int × Envelope) × Option Err :=
    match q.1.2 with
    | some e => ((q.1.1, offset, signedEnv), some e)
    | none =>
      if q.1.1.errors.txError = some .badNonce then
        ((q.1.1, offset + 1, signedEnv), some .badNonce)
      else
        ((q.1.1, offset, signedEnv), none)
  (out, q.2)

/-- `client.signAndSubmitXDR`: fetch the signer's sequence number once, then
submit under the bounded nonce-retry policy. -/
def signAndSubmitXDR (c : ClientOpts) (signers : List PrivateKey)
    (envelope : Envelope) (il : Option InvoiceList) :
    M (SubmitTransactionResult × Option Err) := do
  let (senderInfo, infoErr) ← getStellarAccountInfo (signers.headD ⟨0, 0⟩).Public
  match infoErr with
  | some e => pure (SubmitTransactionResult.empty, some e)
  | none => do
    let (s, err) ← retryRetry c.maxSequenceRetries (· == Err.badNonce)
      (xdrStep c signers il senderInfo.sequenceNumber)
      (SubmitTransactionResult.empty, 1, envelope)
    pure (s.1, err)

/-- One attempt of the Kin 4 submission loop (the closure of lines
1067-1088): fetch a fresh blockhash, re-sign, submit; retriable only on a
BadNonce outcome; the dedupe id is passed unchanged on every attempt. -/
def solanaStep (signers : List PrivateKey) (il : Option InvoiceList)
    (commitment : Nat) (dedupeId : List Nat)
    (s : SubmitTransactionResult × SolanaTx) :
    M ((SubmitTransactionResult × SolanaTx) × Option Err) := fun st =>
  let qb := getRecentBlockhash st
  match qb.1.2 with
  | some e => ((s, some e), qb.2)
  | none =>
    let tx2 : SolanaTx :=
      { s.2 with blockhash := qb.1.1
                 signatures := signers.map PrivateKey.Public }
    let q := submitSolanaTransaction tx2 il commitment dedupeId qb.2
    let out : (SubmitTransactionResult × SolanaTx) × Option Err :=
      match q.1.2 with
      | some e => ((q.1.1, tx2), some e)
      | none =>
        if q.1.1.errors.txError = some .badNonce then
          ((q.1.1, tx2), some .badNonce)
        else
          ((q.1.1, tx2), none)
    (out, q.2)

/-- `client.signAndSubmitTx`: the Kin 4 submission loop, under the same
`maxSequenceRetries` bound as the legacy loop. -/
def signAndSubmitTx (c : ClientOpts) (signers : List PrivateKey)
    (tx : SolanaTx) (commitment : Nat) (il : Option InvoiceList)
    (dedupeId : List Nat) : M (SubmitTransactionResult × Option Err) := do
  let (s, err) ← retryRetry c.maxSequenceRetries (· == Err.badNonce)
    (solanaStep signers il commitment dedupeId)
    (SubmitTransactionResult.empty, tx)
  pure (s.1, err)

/-- The signers of a legacy transaction: the channel key (when set and
different from the sender, compared on the raw private key) precedes the
sender. -/
def legacySigners (sender : PrivateKey) (channel : Option PrivateKey) :
    List PrivateKey :=
  match channel with
  | some ch => if ch = sender then [sender] else [ch, sender]
  | none => [sender]

/-- The legacy-ledger transaction assembly inlined in `SubmitPayment`:
single payment operation (with the Kin 2 quark conversion and asset when on
Kin 2), and the memo selection policy: verbatim text memo, else a structured
kin memo (format version 1, the payment's type, the app index, and the
SHA-224 of the serialized single-invoice list, or 28 zero bytes without an
invoice) when an app index is configured, else no memo.
One payment operation, fee 100, the Kin 2 amount conversion and asset when
on Kin 2. -/
def legacyPaymentBase (c : ClientOpts) (kinVersion : Nat) (payment : Payment) :
    Envelope :=
  let signers := legacySigners payment.sender payment.channel
  let (amount, asset) :=
    if kinVersion = 2 then
      (int64wrap (payment.quarks * 100), Asset.alphaNum4 c.kinIssuer)
    else (payment.quarks, Asset.native)
  { sourceAccount := (signers.headD ⟨0, 0⟩).Public
    fee := 100
    seqNum := 0
    operations := [{ sourceAccount := some payment.sender.Public
                     paymentOp := { destination := payment.destination
                                    amount := amount, asset := asset } }]
    memo := .noMemo
    signatures := [] }

/-- The memo selection of the legacy payment assembly. -/
def buildLegacyPaymentTx (c : ClientOpts) (kinVersion : Nat) (payment : Payment)
    (serialize : InvoiceList → List Nat) (sha224 : List Nat → List Nat) :
    Except Err (Envelope × Option InvoiceList) :=
  let base := legacyPaymentBase c kinVersion payment
  if payment.memo ≠ "" then .ok ({ base with memo := .text payment.memo }, none)
  else if 0 < c.appIndex then
    let (fk, il) : List Nat × Option InvoiceList :=
      match payment.invoice with
      | some inv => (sha224 (serialize [some inv]), some [some inv])
      | none => (List.replicate 28 0, none)
    match newMemo 1 payment.paymentType c.appIndex fk with
    | .error e => .error (.wrap "failed to create memo" e)
    | .ok m => .ok ({ base with memo := .hash m }, il)
  else .ok (base, none)

def buildLegacyPaymentTxM (c : ClientOpts) (kinVersion : Nat)
    (payment : Payment) : M (Except Err (Envelope × Option InvoiceList)) :=
  fun st =>
    (buildLegacyPaymentTx c kinVersion payment st.env.serializeInvoiceList
      st.env.sha224, st)

/-- The memo/invoice-list selection of `submitSolanaPayment`: identical policy
to the legacy assembly, but the structured memo is emitted as a (base64
encoded) memo-program instruction. -/
def solanaPaymentInstructions (c : ClientOpts) (payment : Payment)
    (serialize : InvoiceList → List Nat) (sha224 : List Nat → List Nat) :
    Except Err (List Instruction × Option InvoiceList) :=
  if payment.memo ≠ "" then .ok ([.memoText payment.memo], none)
  else if 0 < c.appIndex then
    let (fk, il) : List Nat × Option InvoiceList :=
      match payment.invoice with
      | some inv => (sha224 (serialize [some inv]), some [some inv])
      | none => (List.replicate 28 0, none)
    match newMemo 1 payment.paymentType c.appIndex fk with
    | .error e => .error (.wrap "failed to create memo" e)
    | .ok m => .ok ([.memoKin m], il)
  else .ok ([], none)

def solanaPaymentInstructionsM (c : ClientOpts) (payment : Payment) :
    M (Except Err (List Instruction × Option InvoiceList)) := fun st =>
  (solanaPaymentInstructions c payment st.env.serializeInvoiceList
    st.env.sha224, st)

/-- `client.submitSolanaPayment`: choose subsidizer and signers, build the
memo and transfer instructions (the transfer's source is the resolved
transfer sender when present, the sender's own account otherwise), and sign
and submit. -/
def submitSolanaPayment (c : ClientOpts) (payment : Payment)
    (config : ServiceConfig) (commitment : Nat) (transferSender : Option Key)
    (subsidizer : Option PrivateKey) :
    M (SubmitTransactionResult × Option Err) := do
  let (subsidizerID, signers) :=
    match subsidizer with
    | some s => (s.Public, [s, payment.sender])
    | none => (config.subsidizerAccount.getD 0, [payment.sender])
  match ← solanaPaymentInstructionsM c payment with
  | .error e => pure (SubmitTransactionResult.empty, some e)
  | .ok (memoIxs, il) =>
    let sender := transferSender.getD payment.sender.Public
    let instructions := memoIxs ++
      [.transfer sender payment.destination payment.sender.Public
        (uint64of payment.quarks)]
    let tx : SolanaTx :=
      { payer := subsidizerID, instructions := instructions, blockhash := 0
        signatures := [] }
    signAndSubmitTx c signers tx commitment il payment.dedupeId

/-- `client.submitPaymentWithResolution`: submit once; on an
AccountDoesNotExist transaction error, resolve the sender (when sender
resolution is Preferred) and the destination (when destination resolution is
Preferred), substitute the first resolved account for each party that
resolved, and resubmit exactly once if anything resolved. -/
def submitPaymentWithResolution (c : ClientOpts) (payment : Payment)
    (o : SolanaOpts) : M (SubmitTransactionResult × Option Err) := do
  let (config, cfgErr) ← getServiceConfig
  match cfgErr with
  | some e =>
    pure (SubmitTransactionResult.empty,
      some (.wrap "failed to get service config" e))
  | none =>
    if config.subsidizerAccount = none ∧ o.subsidizer = none then
      pure (SubmitTransactionResult.empty, some .noSubsidizer)
    else do
      let (result, err) ←
        submitSolanaPayment c payment config o.commitment none o.subsidizer
      match err with
      | some e => pure (result, some e)
      | none =>
        if result.errors.txError = some .accountDoesNotExist then do
          let (transferSender, resubmit, senderErr) ←
            if o.accountResolution = AccountResolution.preferred then do
              let (tokenAccounts, rErr) ←
                resolveTokenAccounts c payment.sender.Public
              match rErr with
              | some e => pure ((none : Option Key), false, some e)
              | none =>
                match tokenAccounts with
                | [] => pure ((none : Option Key), false, (none : Option Err))
                | a :: _ => pure (some a, true, none)
            else pure ((none : Option Key), false, (none : Option Err))
          match senderErr with
          | some e => pure (result, some e)
          | none => do
            let (payment', resubmit', destErr) ←
              if o.destResolution = AccountResolution.preferred then do
                let (tokenAccounts, rErr) ←
                  resolveTokenAccounts c payment.destination
                match rErr with
                | some e => pure (payment, resubmit, some e)
                | none =>
                  match tokenAccounts with
                  | [] => pure (payment, resubmit, (none : Option Err))
                  | a :: _ =>
                    pure ({ payment with destination := a }, true, none)
              else pure (payment, resubmit, (none : Option Err))
            match destErr with
            | some e => pure (result, some e)
            | none =>
              if resubmit' then
                submitSolanaPayment c payment' config o.commitment
                  transferSender o.subsidizer
              else pure (result, none)
        else pure (result, none)

/-- The default per-call options of `SubmitPayment`/`SubmitEarnBatch`: the
client's default commitment, Preferred resolution for sender and
destination, no per-call subsidizer. -/
def defaultSubmitOpts (c : ClientOpts) : SolanaOpts :=
  { commitment := c.defaultCommitment
    accountResolution := .preferred
    destResolution := .preferred
    subsidizer := none }

/-- Apply the caller's functional options over the defaults. -/
def applySolanaOpts (base : SolanaOpts) (opts : List (SolanaOpts → SolanaOpts)) :
    SolanaOpts :=
  opts.foldl (fun o f => f o) base

/-- The tail of `SubmitPayment` (lines 557-580): map the submission outcome to
the caller, in the order transport error, per-payment error, top-level
transaction error, invoice error. -/
def paymentResultToCaller (result : SubmitTransactionResult)
    (err : Option Err) : List Nat × Option Err :=
  match err with
  | some e => (result.id, some e)
  | none =>
    match result.errors.paymentErrors with
    | [e] => (result.id, some e)
    | _ :: _ :: _ => (result.id, some (.message "invalid number of payment errors"))
    | [] =>
      match result.errors.txError with
      | some t => (result.id, some t)
      | none =>
        match result.invoiceErrors with
        | [e] => (result.id, some (invoiceErrorFromProto e))
        | _ :: _ :: _ =>
          (result.id, some (.message "invalid number of invoice errors"))
        | [] => (result.id, none)

/-- `client.SubmitPayment`: validate, then dispatch on the current kin
version; on the legacy path, a FailedPrecondition submission error triggers
the one-shot version upgrade and a resubmission through the token-ledger
path; the outcome is mapped by `paymentResultToCaller`. -/
def SubmitPayment (c : ClientOpts) (payment : Payment)
    (opts : List (SolanaOpts → SolanaOpts)) : M (List Nat × Option Err) := do
  let kv ← getKinVersion
  if 4 < kv ∨ kv < 2 then
    pure (([] : List Nat), some (.message "unsupported kin version"))
  else if payment.invoice.isSome ∧ c.appIndex = 0 then
    pure (([] : List Nat),
      some (.message "cannot submit payment with invoices without an app index"))
  else do
    let sOpts := applySolanaOpts (defaultSubmitOpts c) opts
    let outcome : Except Err (SubmitTransactionResult × Option Err) ←
      if kv = 4 then do
        let r ← submitPaymentWithResolution c payment sOpts
        pure (Except.ok r)
      else do
        match ← buildLegacyPaymentTxM c kv payment with
        | .error e => pure (Except.error e)
        | .ok (envelope, il) => do
          let (result, err) ←
            signAndSubmitXDR c (legacySigners payment.sender payment.channel)
              envelope il
          match err with
          | some e =>
            if statusCode e = grpcFailedPrecondition then do
              setKinVersion 4
              let r ← submitPaymentWithResolution c payment sOpts
              pure (Except.ok r)
            else pure (Except.ok (result, some e))
          | none => pure (Except.ok (result, none))
    match outcome with
    | .error e => pure (([] : List Nat), some e)
    | .ok (result, err) => pure (paymentResultToCaller result err)

/-- Adjacent earns disagree on invoice presence somewhere (the loop of lines
610-615). -/
def mixedInvoices : List Earn → Bool
  | a :: b :: rest => (a.invoice.isNone != b.invoice.isNone) || mixedInvoices (b :: rest)
  | _ => false

/-- The batch-shape validation of `SubmitEarnBatch` (lines 590-620), run
before any network call: empty batch, oversized batch, text memo combined
with invoices, invoices without an app index, and partial invoice
coverage. -/
def earnBatchValidationError (c : ClientOpts) (memo : String)
    (earns : List Earn) : Option Err :=
  if earns.length = 0 then some (.message "earn batch must contain at least 1 earn")
  else if 15 < earns.length then
    some (.message "earn batch must not contain more than 15 earns")
  else if memo ≠ "" then
    if earns.any (fun e => e.invoice.isSome) then
      some (.message "cannot have invoice set when memo is set")
    else none
  else if (earns.headD default).invoice.isSome ∧ c.appIndex = 0 then
    some (.message "cannot submit earn batch with invoices without an app index")
  else if mixedInvoices earns then
    some (.message "either all or none of the earns should have an invoice set")
  else none

/-- The memo block of the legacy `submitEarnBatch` (lines 944-984): text memo
verbatim, otherwise collect the earns' invoices; a non-empty collection must
cover every earn and is serialized and hashed; the structured earn memo is
emitted even when the app index is zero. -/
def buildLegacyEarnBatchMemo (c : ClientOpts) (memo : String)
    (earns : List Earn) (base : Envelope) (serialize : InvoiceList → List Nat)
    (sha224 : List Nat → List Nat) :
    Except Err (Envelope × Option InvoiceList) :=
  if memo ≠ "" then .ok ({ base with memo := .text memo }, none)
  else
    let invoices := earns.filterMap (fun r => r.invoice)
    if 0 < invoices.length ∧ invoices.length ≠ earns.length then
      .error (.message "either all or none of the earns should have an invoice set")
    else
      let (fk, il) : List Nat × Option InvoiceList :=
        if 0 < invoices.length then
          (sha224 (serialize (invoices.map some)), some (invoices.map some))
        else (List.replicate 28 0, none)
      match newMemo 1 transactionTypeEarn c.appIndex fk with
      | .error e => .error (.wrap "failed to create memo" e)
      | .ok m => .ok ({ base with memo := .hash m }, il)

def buildLegacyEarnBatchMemoM (c : ClientOpts) (memo : String)
    (earns : List Earn) (base : Envelope) :
    M (Except Err (Envelope × Option InvoiceList)) := fun st =>
  (buildLegacyEarnBatchMemo c memo earns base st.env.serializeInvoiceList
    st.env.sha224, st)

/-- The envelope the legacy `submitEarnBatch` assembles before the memo
block: one payment operation per earn, fee 100 per operation, the Kin 2
quark conversion and asset when on Kin 2. -/
def legacyEarnBatchBase (c : ClientOpts) (kv : Nat) (batch : EarnBatch)
    (earns : List Earn) : Envelope :=
  let signers := legacySigners batch.sender batch.channel
  let (quarksToRaw, asset) :=
    if kv = 2 then ((100 : Int), Asset.alphaNum4 c.kinIssuer)
    else (1, Asset.native)
  { sourceAccount := (signers.headD ⟨0, 0⟩).Public
    fee := 100 * earns.length
    seqNum := 0
    operations := earns.map (fun r =>
      { sourceAccount := some batch.sender.Public
        paymentOp := { destination := r.destination
                       amount := int64wrap (r.quarks * quarksToRaw)
                       asset := asset } })
    memo := .noMemo
    signatures := [] }

/-- `client.submitEarnBatch` (the legacy helper): assemble the batch
envelope and memo block, submit, and guard that invoice errors never appear
on an earn submission. -/
def submitEarnBatch (c : ClientOpts) (batch : EarnBatch) :
    M (SubmitTransactionResult × Option Err) := do
  let earns ← heapGet batch.earns
  let signers := legacySigners batch.sender batch.channel
  let kv ← getKinVersion
  let base := legacyEarnBatchBase c kv batch earns
  match ← buildLegacyEarnBatchMemoM c batch.memo earns base with
  | .error e => pure (SubmitTransactionResult.empty, some e)
  | .ok (envelope, il) => do
    let (result, err) ← signAndSubmitXDR c signers envelope il
    match err with
    | some e => pure (result, some e)
    | none =>
      if 0 < result.invoiceErrors.length then
        pure (result, some (.message "unexpected invoice errors present"))
      else pure (result, none)

/-- The memo/invoice-list selection of `submitSolanaEarnBatch`: text memo
verbatim; otherwise, when an app index is configured, one invoice slot per
earn (read off the first earn's invoice presence) hashed into the structured
earn memo. -/
def solanaEarnBatchInstructions (c : ClientOpts) (memo : String)
    (earns : List Earn) (serialize : InvoiceList → List Nat)
    (sha224 : List Nat → List Nat) :
    Except Err (List Instruction × Option InvoiceList) :=
  if memo ≠ "" then .ok ([.memoText memo], none)
  else if 0 < c.appIndex then
    let (fk, il) : List Nat × Option InvoiceList :=
      if (earns.headD default).invoice.isSome then
        let invoices : InvoiceList := earns.map (fun e => e.invoice)
        (sha224 (serialize invoices), some invoices)
      else (List.replicate 28 0, none)
    match newMemo 1 transactionTypeEarn c.appIndex fk with
    | .error e => .error (.wrap "failed to create memo" e)
    | .ok m => .ok ([.memoKin m], il)
  else .ok ([], none)

def solanaEarnBatchInstructionsM (c : ClientOpts) (memo : String)
    (earns : List Earn) : M (Except Err (List Instruction × Option InvoiceList)) :=
  fun st =>
    (solanaEarnBatchInstructions c memo earns st.env.serializeInvoiceList
      st.env.sha224, st)

/-- `client.submitSolanaEarnBatch`: subsidizer and signers as for a payment,
memo instructions, then one transfer per earn (all from the resolved
transfer sender, or the batch sender's own account). -/
def submitSolanaEarnBatch (c : ClientOpts) (batch : EarnBatch)
    (config : ServiceConfig) (commitment : Nat) (transferSender : Option Key)
    (subsidizer : Option PrivateKey) :
    M (SubmitTransactionResult × Option Err) := do
  let earns ← heapGet batch.earns
  let (subsidizerID, signers) :=
    match subsidizer with
    | some s => (s.Public, [s, batch.sender])
    | none => (config.subsidizerAccount.getD 0, [batch.sender])
  match ← solanaEarnBatchInstructionsM c batch.memo earns with
  | .error e => pure (SubmitTransactionResult.empty, some e)
  | .ok (memoIxs, il) =>
    let sender := transferSender.getD batch.sender.Public
    let instructions := memoIxs ++ earns.map (fun e =>
      Instruction.transfer sender e.destination batch.sender.Public
        (uint64of e.quarks))
    let tx : SolanaTx :=
      { payer := subsidizerID, instructions := instructions, blockhash := 0
        signatures := [] }
    signAndSubmitTx c signers tx commitment il batch.dedupeId

/-- The destination-resolution loop of `submitEarnBatchWithResolution`
(lines 804-815): for each earn index, resolve its destination; a non-empty
resolution overwrites `batch.Earns[i].Destination` in the shared backing
array and forces a resubmission. -/
def resolveEarnDests (c : ClientOpts) (earnsRef : Nat) :
    List Nat → Bool → M (Bool × Option Err)
  | [], resubmit => pure (resubmit, none)
  | i :: rest, resubmit => do
    let earns ← heapGet earnsRef
    let dest := (earns.getD i default).destination
    let (tokenAccounts, rErr) ← resolveTokenAccounts c dest
    match rErr with
    | some e => pure (resubmit, some e)
    | none =>
      match tokenAccounts with
      | [] => resolveEarnDests c earnsRef rest resubmit
      | a :: _ => do
        heapSetEarnDest earnsRef i a
        resolveEarnDests c earnsRef rest true

/-- `client.submitEarnBatchWithResolution`: submit once; on an
AccountDoesNotExist transaction error, resolve the sender (Preferred mode
only) and every earn destination (Preferred mode only, writing resolved
destinations through the shared slice), then resubmit exactly once if
anything resolved. -/
def submitEarnBatchWithResolution (c : ClientOpts) (batch : EarnBatch)
    (config : ServiceConfig) (o : SolanaOpts) :
    M (SubmitTransactionResult × Option Err) := do
  let (result, err) ←
    submitSolanaEarnBatch c batch config o.commitment none o.subsidizer
  match err with
  | some e => pure (result, some e)
  | none =>
    if result.errors.txError = some .accountDoesNotExist then do
      let (transferSender, resubmit, senderErr) ←
        if o.accountResolution = AccountResolution.preferred then do
          let (tokenAccounts, rErr) ← resolveTokenAccounts c batch.sender.Public
          match rErr with
          | some e => pure ((none : Option Key), false, some e)
          | none =>
            match tokenAccounts with
            | [] => pure ((none : Option Key), false, (none : Option Err))
            | a :: _ => pure (some a, true, none)
        else pure ((none : Option Key), false, (none : Option Err))
      match senderErr with
      | some e => pure (result, some e)
      | none => do
        let earns ← heapGet batch.earns
        let (resubmit', destErr) ←
          if o.destResolution = AccountResolution.preferred then
            resolveEarnDests c batch.earns (List.range earns.length) resubmit
          else pure (resubmit, (none : Option Err))
        match destErr with
        | some e => pure (result, some e)
        | none =>
          if resubmit' then
            submitSolanaEarnBatch c batch config o.commitment transferSender
              o.subsidizer
          else pure (result, none)
    else pure (result, none)

/-- `client.SubmitEarnBatch`: version and batch-shape validation before any
network call, dispatch on the kin version (the legacy path performs no
FailedPrecondition version upgrade), and the mapping of the submission
result to an `EarnBatchResult`. -/
def SubmitEarnBatch (c : ClientOpts) (batch : EarnBatch)
    (opts : List (SolanaOpts → SolanaOpts)) : M (EarnBatchResult × Option Err) := do
  let kv ← getKinVersion
  if 4 < kv ∨ kv < 2 then
    pure (EarnBatchResult.empty, some (.message "unsupported kin version"))
  else do
    let earns ← heapGet batch.earns
    match earnBatchValidationError c batch.memo earns with
    | some e => pure (EarnBatchResult.empty, some e)
    | none => do
      let sOpts := applySolanaOpts (defaultSubmitOpts c) opts
      let submitOutcome : Except Err SubmitTransactionResult ←
        if kv = 2 ∨ kv = 3 then do
          let (sr, err) ← submitEarnBatch c batch
          match err with
          | some e => pure (Except.error e)
          | none => pure (Except.ok sr)
        else do
          let (config, cfgErr) ← getServiceConfig
          match cfgErr with
          | some e => pure (Except.error e)
          | none =>
            if config.subsidizerAccount = none ∧ sOpts.subsidizer = none then
              pure (Except.error Err.noSubsidizer)
            else do
              let (sr, err) ← submitEarnBatchWithResolution c batch config sOpts
              match err with
              | some e => pure (Except.error e)
              | none => pure (Except.ok sr)
      match submitOutcome with
      | .error e => pure (EarnBatchResult.empty, some e)
      | .ok submitResult =>
        let result0 : EarnBatchResult :=
          { txId := submitResult.id, txError := none, earnErrors := [] }
        let result :=
          match submitResult.errors.txError with
          | some t =>
            let result1 := { result0 with txError := some t }
            if 0 < submitResult.errors.paymentErrors.length then
              let ee : List EarnError :=
                submitResult.errors.paymentErrors.enum.map (fun p => ⟨p.1, p.2⟩)
              { result1 with earnErrors := ee }
            else result1
          | none =>
            if 0 < submitResult.invoiceErrors.length then
              let ee : List EarnError :=
                submitResult.invoiceErrors.map
                  (fun e => ⟨e.opIndex, invoiceErrorFromProto e⟩)
              { result0 with txError := some .transactionRejected
                             earnErrors := ee }
            else result0
        pure (result, none)

/-! ## Webhook model (webhook.go) -/

/-- A decoded `signtransaction.Request` body. -/
structure SignRequest where
  kinVersion : Int
  envelopeXdr : List Nat
  solanaTransaction : List Nat
  invoiceList : List Nat
deriving DecidableEq, Repr

/-- The outcome of the user callback `f(req, resp)`: whether it returned an
error, and the rejected flag / invoice errors it set on the response. -/
structure CallbackOutcome where
  userErr : Bool
  rejected : Bool
  invoiceErrors : List ProtoInvoiceError
deriving DecidableEq, Repr

/-- An inbound HTTP request: method, the `X-Agora-HMAC-SHA256` header value
(`""` when absent, as `http.Header.Get` reports), and the raw body bytes. -/
structure HttpRequest where
  method : String
  hmacHeader : String
  body : List Nat
deriving DecidableEq, Repr

/-- The part of the HTTP response the claims are about: the status code. -/
structure HttpResponse where
  status : Nat
deriving DecidableEq, Repr

/-- The webhook's external collaborators, abstracted at their boundary:
base64 decoding, HMAC-SHA256, the JSON/protobuf/XDR decoders, the payment
parsers, and the user callback. -/
structure WebhookDeps where
  base64Decode : String → Option (List Nat)
  hmacSha256 : List Nat → List Nat → List Nat
  decodeSignRequest : List Nat → Option SignRequest
  unmarshalInvoiceList : List Nat → Option InvoiceList
  unmarshalSolanaTx : List Nat → Option Nat
  parseSolanaPayments : Nat → Option InvoiceList → Except String (List Nat)
  unmarshalEnvelope : List Nat → Option Nat
  parseEnvelopePayments : Nat → Option InvoiceList → Int → Except String (List Nat)
  callback : List Nat → CallbackOutcome

/-- `verifySignature`: reject when the header is absent or not base64, then
compare the HMAC-SHA256 digest of the raw body keyed by the secret against
the decoded signature. -/
def verifySignature (d : WebhookDeps) (hmacHeader : String)
    (body secret : List Nat) : Option Err :=
  if hmacHeader = "" then some (.message "missing signature")
  else
    match d.base64Decode hmacHeader with
    | none => some (.message "invalid signature")
    | some sig =>
      if d.hmacSha256 secret body = sig then none
      else some (.message "hmac signature mismatch")

/-- The tail of the sign-transaction handler once payments are parsed: run
the user callback; an error yields 500, a rejection 403, success 200. -/
def handlerFinish (d : WebhookDeps) (payments : List Nat) : HttpResponse :=
  let outcome := d.callback payments
  if outcome.userErr then ⟨500⟩
  else if outcome.rejected then ⟨403⟩
  else ⟨200⟩

/-- The sign-transaction handler body once the zero-version default has been
applied: reject versions outside 2..4 with 400; decode the invoice list and
the transaction, parse the payments (failures are 400), and finish with the
user callback. -/
def signTransactionVersioned (d : WebhookDeps) (req : SignRequest) :
    HttpResponse :=
  if req.kinVersion < 2 ∨ 4 < req.kinVersion then ⟨400⟩
  else
    match (if 0 < req.invoiceList.length then
            match d.unmarshalInvoiceList req.invoiceList with
            | none => Except.error ()
            | some il => Except.ok (some il)
          else Except.ok none : Except Unit (Option InvoiceList)) with
    | .error _ => ⟨400⟩
    | .ok il =>
      if req.kinVersion = 4 then
        match d.unmarshalSolanaTx req.solanaTransaction with
        | none => ⟨400⟩
        | some tx =>
          match d.parseSolanaPayments tx il with
          | .error _ => ⟨400⟩
          | .ok payments => handlerFinish d payments
      else
        match d.unmarshalEnvelope req.envelopeXdr with
        | none => ⟨400⟩
        | some env =>
          match d.parseEnvelopePayments env il req.kinVersion with
          | .error _ => ⟨400⟩
          | .ok payments => handlerFinish d payments

/-- The sign-transaction handler body after the method and signature gates:
reject an undecodable body with 400, default a zero kin version to 3. -/
def signTransactionBody (d : WebhookDeps) (r : HttpRequest) : HttpResponse :=
  match d.decodeSignRequest r.body with
  | none => ⟨400⟩
  | some req0 =>
    signTransactionVersioned d
      (if req0.kinVersion = 0 then { req0 with kinVersion := 3 } else req0)

/-- `SignTransactionHandler`: reject non-POST with 405; when a non-empty
secret is configured, reject with 401 unless the HMAC signature verifies;
otherwise run the handler body. -/
def SignTransactionHandler (d : WebhookDeps) (secret : List Nat)
    (r : HttpRequest) : HttpResponse :=
  if r.method ≠ "POST" then ⟨405⟩
  else if 0 < secret.length ∧
      (verifySignature d r.hmacHeader r.body secret).isSome then ⟨401⟩
  else signTransactionBody d r

/-! ## Trace observations and shared fixtures -/

/-- Is this call a legacy (stellar) submission? -/
def isStellarSubmit : Call → Bool
  | .submitStellar _ => true
  | _ => false

/-- Is this call a token-ledger (solana) submission? -/
def isSolanaSubmit : Call → Bool
  | .submitSolana _ _ _ _ => true
  | _ => false

/-- Is this call a stellar account-info (sequence number) fetch? -/
def isInfoFetch : Call → Bool
  | .getStellarAccountInfo _ => true
  | _ => false

/-- Is this call a token-account resolution query? -/
def isResolveCall : Call → Bool
  | .resolveAccounts _ => true
  | _ => false

/-- Number of calls of a given kind in a trace. -/
def countCalls (g : Call → Bool) (t : List Call) : Nat := (t.filter g).length

/-- The sequence numbers of the submitted legacy envelopes, in order. -/
def submittedSeqNums (t : List Call) : List Int :=
  t.filterMap (fun c => match c with
    | .submitStellar e => some e.seqNum
    | _ => none)

/-- A submission response that drives the nonce-retry loop around again:
no transport error and a BadNonce transaction error. -/
abbrev badNonceResp (r : SubmitTransactionResult × Option Err) : Prop :=
  r.2 = none ∧ r.1.errors.txError = some Err.badNonce

/-- A submission response that ends the nonce-retry loop: neither a BadNonce
transport error nor a BadNonce transaction outcome. -/
abbrev terminalResp (r : SubmitTransactionResult × Option Err) : Prop :=
  r.2 ≠ some Err.badNonce ∧ ¬badNonceResp r

/-- State preservation along a run: the kin version is unchanged and no call
of kind `g` was added to the trace. -/
def PreservesVK (g : Call → Bool) (st st' : St) : Prop :=
  st'.kinVersion = st.kinVersion ∧ countCalls g st'.trace = countCalls g st.trace

/-- A concrete environment for witnesses: the abstract cryptographic
functions are instantiated with simple computable stand-ins. -/
def testEnv : Env :=
  { serializeInvoiceList := fun il => il.map (fun o => o.getD 0)
    sha224 := fun bs => List.replicate 27 0 ++ [bs.length % 256]
    now := 1000
    stellarAccountInfos := []
    stellarSubmits := []
    serviceConfigs := []
    blockhashes := []
    solanaSubmits := []
    resolveResponses := [] }

/-- A concrete base state for witnesses. -/
def testSt : St :=
  { env := testEnv, kinVersion := 3, cache := [], heap := [], trace := [] }

/-- Concrete client options for witnesses (small retry budgets keep witness
evaluation cheap). -/
def testOpts : ClientOpts :=
  { maxRetries := 2, maxSequenceRetries := 3, whitelistKey := none
    appIndex := 0, kinIssuer := 99, defaultCommitment := 1 }

/-- A concrete payment for witnesses. -/
def testPayment : Payment :=
  { sender := ⟨1, 2⟩, destination := 5, paymentType := 2, quarks := 7
    channel := none, memo := "", invoice := none, dedupeId := [] }

/-- A successful concrete submission result for witnesses. -/
def testOkResult : SubmitTransactionResult := ⟨[42], ⟨none, [], []⟩, []⟩

/-- A concrete AccountDoesNotExist submission result for witnesses. -/
def testAdneResult : SubmitTransactionResult :=
  ⟨[9], ⟨some .accountDoesNotExist, [], []⟩, []⟩

/-- A concrete BadNonce submission result for witnesses. -/
def testBadNonceResult : SubmitTransactionResult :=
  ⟨[7], ⟨some .badNonce, [], []⟩, []⟩

/-- Concrete webhook collaborators for witnesses: the HMAC of any message is
`[1]`, only the header string "sig" decodes (to `[1]`), every body decodes
to a version-`v` request with a decodable envelope, and the callback
approves. -/
def testDeps (v : Int) : WebhookDeps :=
  { base64Decode := fun s => if s = "sig" then some [1] else none
    hmacSha256 := fun _ _ => [1]
    decodeSignRequest := fun _ => some ⟨v, [0], [], []⟩
    unmarshalInvoiceList := fun _ => none
    unmarshalSolanaTx := fun _ => some 0
    parseSolanaPayments := fun _ _ => .ok []
    unmarshalEnvelope := fun _ => some 0
    parseEnvelopePayments := fun _ _ _ => .ok []
    callback := fun _ => ⟨false, false, []⟩ }

/-- A concrete environment for the migration scenario: the legacy
submission fails with gRPC FailedPrecondition, and the token-ledger
resubmission succeeds. -/
def c1Env : Env :=
  { testEnv with
    stellarAccountInfos := [(⟨10, 5⟩, none)]
    stellarSubmits := [(SubmitTransactionResult.empty,
      some (Err.grpcStatus 9))]
    serviceConfigs := [(⟨some 50⟩, none)]
    blockhashes := [(77, none)]
    solanaSubmits := [(testOkResult, none)] }

/-- Initial state of the migration scenario: a Kin 3 client. -/
def c1St0 : St :=
  { env := c1Env, kinVersion := 3, cache := [], heap := [], trace := [] }

/-- The legacy envelope `buildLegacyPaymentTx` assembles for `testPayment`
on Kin 3 (no text memo, no app index: bare payment operation). -/
def c1Envl : Envelope :=
  { sourceAccount := 2
    fee := 100
    seqNum := 0
    operations := [{ sourceAccount := some 2
                     paymentOp := { destination := 5, amount := 7
                                    asset := Asset.native } }]
    memo := .noMemo
    signatures := [] }

/-- The state after the failing legacy submission of the migration
scenario. -/
def c1St1 : St :=
  (signAndSubmitXDR testOpts (legacySigners testPayment.sender
    testPayment.channel) c1Envl none c1St0).2

/-- A bare concrete envelope for exercising the nonce-retry loop. -/
def c4Envelope : Envelope :=
  { sourceAccount := 2, fee := 100, seqNum := 0, operations := []
    memo := .noMemo, signatures := [] }

/-- A concrete state for the nonce-retry scenario: the signer's account is at
sequence number 5 and every prescribed submission outcome is BadNonce. -/
def c4St : St :=
  { env := { testEnv with
      stellarAccountInfos := [(⟨0, 5⟩, none)]
      stellarSubmits := [(testBadNonceResult, none), (testBadNonceResult, none),
        (testBadNonceResult, none)] }
    kinVersion := 3, cache := [], heap := [], trace := [] }

/-! ## Run lemmas and generic loop lemmas -/

@[simp] theorem run_pure {α : Type} (a : α) (st : St) :
    (pure a : M α) st = (a, st) := rfl

@[simp] theorem run_bind {α β : Type} (x : M α) (f : α → M β) (st : St) :
    (x >>= f) st = f (x st).1 (x st).2 := rfl

theorem countCalls_append (g : Call → Bool) (t t' : List Call) :
    countCalls g (t ++ t') = countCalls g t + countCalls g t' := by
  simp [countCalls, List.filter_append]

theorem countCalls_snoc_false (g : Call → Bool) (t : List Call) (c : Call)
    (hc : g c = false) : countCalls g (t ++ [c]) = countCalls g t := by
  simp [countCalls, List.filter_append, hc]

theorem countCalls_snoc_true (g : Call → Bool) (t : List Call) (c : Call)
    (hc : g c = true) : countCalls g (t ++ [c]) = countCalls g t + 1 := by
  simp [countCalls, List.filter_append, hc]

theorem submittedSeqNums_append (t t' : List Call) :
    submittedSeqNums (t ++ t') = submittedSeqNums t ++ submittedSeqNums t' := by
  simp [submittedSeqNums, List.filterMap_append]

theorem preservesVK_refl (g : Call → Bool) (st : St) : PreservesVK g st st :=
  ⟨rfl, rfl⟩

theorem preservesVK_trans (g : Call → Bool) {a b c : St}
    (h1 : PreservesVK g a b) (h2 : PreservesVK g b c) : PreservesVK g a c :=
  ⟨h2.1.trans h1.1, h2.2.trans h1.2⟩

theorem retryGo_inv (P : St → St → Prop)
    (htrans : ∀ {a b c : St}, P a b → P b c → P a c)
    (retr : Err → Bool) {σ : Type} (f : σ → M (σ × Option Err))
    (hf : ∀ s st, P st ((f s st).2)) :
    ∀ (n : Nat) (s : σ) (st : St), P st ((retryGo retr f s n st).2) := by
  intro n
  induction n with
  | zero => intro s st; exact hf s st
  | succ n ih =>
    intro s st
    show P st ((match (f s st).1 with
      | (s', none) => ((s', none), (f s st).2)
      | (s', some e) =>
        if retr e then retryGo retr f s' n (f s st).2
        else ((s', some e), (f s st).2)).2)
    rcases h : (f s st).1 with ⟨s', e⟩
    cases e with
    | none => simpa using hf s st
    | some e =>
      by_cases hr : retr e
      · simp only [hr, if_true]
        exact htrans (hf s st) (ih s' (f s st).2)
      · simpa [hr] using hf s st

theorem preserves_getStellarAccountInfo (g : Call → Bool) (a : Key)
    (hg : ∀ k, g (Call.getStellarAccountInfo k) = false) (st : St) :
    PreservesVK g st ((getStellarAccountInfo a st).2) := by
  unfold getStellarAccountInfo
  rcases st.env.stellarAccountInfos with _ | ⟨r, rest⟩ <;>
    exact ⟨rfl, countCalls_snoc_false g st.trace _ (hg a)⟩

theorem preserves_submitStellarTransaction (g : Call → Bool) (e : Envelope)
    (il : Option InvoiceList)
    (hg : ∀ e', g (Call.submitStellar e') = false) (st : St) :
    PreservesVK g st ((submitStellarTransaction e il st).2) := by
  unfold submitStellarTransaction
  rcases st.env.stellarSubmits with _ | ⟨r, rest⟩ <;>
    exact ⟨rfl, countCalls_snoc_false g st.trace _ (hg e)⟩

theorem preserves_getServiceConfig (g : Call → Bool)
    (hg : g Call.getServiceConfig = false) (st : St) :
    PreservesVK g st ((getServiceConfig st).2) := by
  unfold getServiceConfig
  rcases st.env.serviceConfigs with _ | ⟨r, rest⟩ <;>
    exact ⟨rfl, countCalls_snoc_false g st.trace _ hg⟩

theorem preserves_getRecentBlockhash (g : Call → Bool)
    (hg : g Call.getRecentBlockhash = false) (st : St) :
    PreservesVK g st ((getRecentBlockhash st).2) := by
  unfold getRecentBlockhash
  rcases st.env.blockhashes with _ | ⟨r, rest⟩ <;>
    exact ⟨rfl, countCalls_snoc_false g st.trace _ hg⟩

theorem preserves_submitSolanaTransaction (g : Call → Bool) (tx : SolanaTx)
    (il : Option InvoiceList) (cm : Nat) (d : List Nat)
    (hg : ∀ tx' il' cm' d', g (Call.submitSolana tx' il' cm' d') = false)
    (st : St) :
    PreservesVK g st ((submitSolanaTransaction tx il cm d st).2) := by
  unfold submitSolanaTransaction
  rcases st.env.solanaSubmits with _ | ⟨r, rest⟩ <;>
    exact ⟨rfl, countCalls_snoc_false g st.trace _ (hg tx il cm d)⟩

theorem preserves_internalResolveTokenAccounts (g : Call → Bool) (a : Key)
    (hg : ∀ k, g (Call.resolveAccounts k) = false) (st : St) :
    PreservesVK g st ((internalResolveTokenAccounts a st).2) := by
  unfold internalResolveTokenAccounts
  rcases st.env.resolveResponses with _ | ⟨_ | _, rest⟩ <;>
    exact ⟨rfl, countCalls_snoc_false g st.trace _ (hg a)⟩

theorem preserves_resolveStep (g : Call → Bool) (a : Key)
    (hg : ∀ k, g (Call.resolveAccounts k) = false) (s : List Key) (st : St) :
    PreservesVK g st ((resolveStep a s st).2) :=
  preserves_internalResolveTokenAccounts g a hg st

theorem preserves_solanaStep (g : Call → Bool) (signers : List PrivateKey)
    (il : Option InvoiceList) (cm : Nat) (d : List Nat)
    (hg1 : g Call.getRecentBlockhash = false)
    (hg2 : ∀ tx' il' cm' d', g (Call.submitSolana tx' il' cm' d') = false)
    (s : SubmitTransactionResult × SolanaTx) (st : St) :
    PreservesVK g st ((solanaStep signers il cm d s st).2) := by
  have hbh := preserves_getRecentBlockhash g hg1 st
  unfold solanaStep
  dsimp only
  cases h : (getRecentBlockhash st).1.2 with
  | some e => exact hbh
  | none =>
    exact preservesVK_trans g hbh
      (preserves_submitSolanaTransaction g _ il cm d hg2 _)

theorem preserves_xdrStep (g : Call → Bool) (c : ClientOpts)
    (signers : List PrivateKey) (il : Option InvoiceList) (seq : Int)
    (hg : ∀ e', g (Call.submitStellar e') = false)
    (s : SubmitTransactionResult × Int × Envelope) (st : St) :
    PreservesVK g st ((xdrStep c signers il seq s st).2) :=
  preserves_submitStellarTransaction g _ il hg st

theorem inv_resolveTokenAccounts (P : St → St → Prop)
    (htrans : ∀ {a b c : St}, P a b → P b c → P a c)
    (hrefl : ∀ st, P st st)
    (hrm : ∀ k st, P st ((cacheRemove k st).2))
    (hadd : ∀ k as st, P st ((cacheAdd k as st).2))
    (hint : ∀ k st, P st ((internalResolveTokenAccounts k st).2))
    (c : ClientOpts) (a : Key) (st : St) :
    P st ((resolveTokenAccounts c a st).2) := by
  have hloop := retryGo_inv P htrans (· == Err.noTokenAccounts) (resolveStep a)
    (fun s st' => hint a st')
  unfold resolveTokenAccounts
  cases hl : cacheLookup st.cache a with
  | none =>
    simp only [run_bind, run_pure, cacheGet, hl, retryRetry]
    rcases hq : retryGo (· == Err.noTokenAccounts) (resolveStep a) []
        (c.maxRetries - 1) st with ⟨⟨accounts, e⟩, st''⟩
    simp only [hq]
    have h1 : P st st'' := by
      have := hloop (c.maxRetries - 1) [] st
      rwa [hq] at this
    by_cases hz : accounts.length = 0 <;>
      simp only [hz, if_true, if_false, run_bind, run_pure]
    · exact h1
    · exact htrans h1 (hadd a accounts st'')
  | some entry =>
    simp only [run_bind, run_pure, cacheGet, getNow, hl]
    by_cases ht : st.env.now - entry.created < 5 * 60
    · simp only [ht, if_true, run_bind, run_pure]
      exact hrefl st
    · simp only [ht, if_false, run_bind, run_pure, cacheRemove, retryRetry]
      rcases hq : retryGo (· == Err.noTokenAccounts) (resolveStep a) []
          (c.maxRetries - 1) { st with cache := cacheErase st.cache a }
        with ⟨⟨accounts, e⟩, st''⟩
      simp only [hq]
      have h0 : P st { st with cache := cacheErase st.cache a } := hrm a st
      have h1 : P { st with cache := cacheErase st.cache a } st'' := by
        have := hloop (c.maxRetries - 1) []
          { st with cache := cacheErase st.cache a }
        rwa [hq] at this
      by_cases hz : accounts.length = 0 <;>
        simp only [hz, if_true, if_false, run_bind, run_pure]
      · exact htrans h0 h1
      · exact htrans h0 (htrans h1 (hadd a accounts st''))

theorem inv_signAndSubmitTx (P : St → St → Prop)
    (htrans : ∀ {a b c : St}, P a b → P b c → P a c)
    (c : ClientOpts) (signers : List PrivateKey) (tx : SolanaTx) (cm : Nat)
    (il : Option InvoiceList) (d : List Nat)
    (hstep : ∀ s st, P st ((solanaStep signers il cm d s st).2)) (st : St) :
    P st ((signAndSubmitTx c signers tx cm il d st).2) := by
  unfold signAndSubmitTx retryRetry
  simp only [run_bind, run_pure]
  rcases hq : retryGo (· == Err.badNonce) (solanaStep signers il cm d)
      (SubmitTransactionResult.empty, tx) (c.maxSequenceRetries - 1) st
    with ⟨⟨s, e⟩, st'⟩
  simp only [hq]
  have := retryGo_inv P htrans (· == Err.badNonce) (solanaStep signers il cm d)
    hstep (c.maxSequenceRetries - 1) (SubmitTransactionResult.empty, tx) st
  rwa [hq] at this

theorem inv_submitSolanaPayment (P : St → St → Prop)
    (hrefl : ∀ st, P st st)
    (c : ClientOpts) (payment : Payment) (config : ServiceConfig) (cm : Nat)
    (ts : Option Key) (sub : Option PrivateKey)
    (hTx : ∀ signers tx il d st, P st ((signAndSubmitTx c signers tx cm il d st).2))
    (st : St) :
    P st ((submitSolanaPayment c payment config cm ts sub st).2) := by
  unfold submitSolanaPayment
  cases sub with
  | none =>
    simp only [run_bind, run_pure, solanaPaymentInstructionsM]
    rcases hb : solanaPaymentInstructions c payment st.env.serializeInvoiceList
        st.env.sha224 with e | ⟨memoIxs, il⟩ <;> simp only [hb]
    · exact hrefl st
    · exact hTx _ _ _ _ st
  | some sk =>
    simp only [run_bind, run_pure, solanaPaymentInstructionsM]
    rcases hb : solanaPaymentInstructions c payment st.env.serializeInvoiceList
        st.env.sha224 with e | ⟨memoIxs, il⟩ <;> simp only [hb]
    · exact hrefl st
    · exact hTx _ _ _ _ st

theorem inv_submitPaymentWithResolution (P : St → St → Prop)
    (htrans : ∀ {a b c : St}, P a b → P b c → P a c)
    (c : ClientOpts) (payment : Payment) (o : SolanaOpts)
    (hcfg : ∀ st, P st ((getServiceConfig st).2))
    (hsp : ∀ pay cfg ts sub st, P st ((submitSolanaPayment c pay cfg o.commitment ts sub st).2))
    (hres : ∀ a st, P st ((resolveTokenAccounts c a st).2))
    (st : St) :
    P st ((submitPaymentWithResolution c payment o st).2) := by
  unfold submitPaymentWithResolution
  try simp only [run_bind, run_pure]
  rcases h0 : getServiceConfig st with ⟨⟨config, cfgErr⟩, st1⟩
  simp only [h0]
  have p0 : P st st1 := by have := hcfg st; rwa [h0] at this
  cases cfgErr with
  | some e => exact p0
  | none =>
    try dsimp only
    try simp only [run_bind, run_pure]
    by_cases hns : config.subsidizerAccount = none ∧ o.subsidizer = none
    · rw [if_pos hns]; exact p0
    · rw [if_neg hns]
      try simp only [run_bind, run_pure]
      rcases h1 : submitSolanaPayment c payment config o.commitment none
          o.subsidizer st1 with ⟨⟨result, err⟩, st2⟩
      simp only [h1]
      have p1 : P st st2 := htrans p0 (by
        have := hsp payment config none o.subsidizer st1; rwa [h1] at this)
      cases err with
      | some e => exact p1
      | none =>
        try dsimp only
        try simp only [run_bind, run_pure]
        by_cases hax : result.errors.txError = some Err.accountDoesNotExist
        · rw [if_pos hax]
          try simp only [run_bind, run_pure]
          by_cases har : o.accountResolution = AccountResolution.preferred
          · rw [if_pos har]
            try simp only [run_bind, run_pure]
            rcases h2 : resolveTokenAccounts c payment.sender.Public st2
              with ⟨⟨tas, rerr⟩, st3⟩
            simp only [h2]
            have p2 : P st st3 := htrans p1 (by
              have := hres payment.sender.Public st2; rwa [h2] at this)
            cases rerr with
            | some e => exact p2
            | none =>
              cases tas with
              | nil =>
                try dsimp only
                try simp only [run_bind, run_pure]
                by_cases hdr : o.destResolution = AccountResolution.preferred
                · rw [if_pos hdr]
                  try simp only [run_bind, run_pure]
                  rcases h3 : resolveTokenAccounts c payment.destination st3
                    with ⟨⟨tds, derr⟩, st4⟩
                  simp only [h3]
                  have p3 : P st st4 := htrans p2 (by
                    have := hres payment.destination st3; rwa [h3] at this)
                  cases derr with
                  | some e => exact p3
                  | none =>
                    cases tds with
                    | nil => exact p3
                    | cons d ds => exact htrans p3 (hsp _ config none o.subsidizer st4)
                · rw [if_neg hdr]
                  try dsimp only
                  try simp only [run_bind, run_pure]
                  exact p2
              | cons a as =>
                try dsimp only
                try simp only [run_bind, run_pure]
                by_cases hdr : o.destResolution = AccountResolution.preferred
                · rw [if_pos hdr]
                  try simp only [run_bind, run_pure]
                  rcases h3 : resolveTokenAccounts c payment.destination st3
                    with ⟨⟨tds, derr⟩, st4⟩
                  simp only [h3]
                  have p3 : P st st4 := htrans p2 (by
                    have := hres payment.destination st3; rwa [h3] at this)
                  cases derr with
                  | some e => exact p3
                  | none =>
                    cases tds with
                    | nil => exact htrans p3 (hsp _ config (some a) o.subsidizer st4)
                    | cons d ds => exact htrans p3 (hsp _ config (some a) o.subsidizer st4)
                · rw [if_neg hdr]
                  try dsimp only
                  try simp only [run_bind, run_pure]
                  exact htrans p2 (hsp _ config (some a) o.subsidizer st3)
          · rw [if_neg har]
            try simp only [run_bind, run_pure]
            by_cases hdr : o.destResolution = AccountResolution.preferred
            · rw [if_pos hdr]
              try simp only [run_bind, run_pure]
              rcases h3 : resolveTokenAccounts c payment.destination st2
                with ⟨⟨tds, derr⟩, st4⟩
              simp only [h3]
              have p3 : P st st4 := htrans p1 (by
                have := hres payment.destination st2; rwa [h3] at this)
              cases derr with
              | some e => exact p3
              | none =>
                cases tds with
                | nil => exact p3
                | cons d ds => exact htrans p3 (hsp _ config none o.subsidizer st4)
            · rw [if_neg hdr]
              try dsimp only
              try simp only [run_bind, run_pure]
              exact p1
        · rw [if_neg hax]
          exact p1

theorem inv_signAndSubmitXDR (P : St → St → Prop)
    (htrans : ∀ {a b c : St}, P a b → P b c → P a c)
    (c : ClientOpts) (signers : List PrivateKey) (envelope : Envelope)
    (il : Option InvoiceList)
    (hinfo : ∀ a st, P st ((getStellarAccountInfo a st).2))
    (hstep : ∀ seq s st, P st ((xdrStep c signers il seq s st).2))
    (st : St) : P st ((signAndSubmitXDR c signers envelope il st).2) := by
  unfold signAndSubmitXDR retryRetry
  simp only [run_bind, run_pure]
  rcases h0 : getStellarAccountInfo (signers.headD ⟨0, 0⟩).Public st
    with ⟨⟨info, infoErr⟩, st1⟩
  simp only [h0]
  have p0 : P st st1 := by have := hinfo (signers.headD ⟨0, 0⟩).Public st; rwa [h0] at this
  cases infoErr with
  | some e => exact p0
  | none =>
    try dsimp only
    try simp only [run_bind, run_pure]
    rcases hq : retryGo (· == Err.badNonce)
        (xdrStep c signers il info.sequenceNumber)
        (SubmitTransactionResult.empty, 1, envelope)
        (c.maxSequenceRetries - 1) st1 with ⟨⟨s, e⟩, st2⟩
    simp only [hq]
    have p1 : P st1 st2 := by
      have := retryGo_inv P htrans (· == Err.badNonce)
        (xdrStep c signers il info.sequenceNumber)
        (fun s st' => hstep info.sequenceNumber s st')
        (c.maxSequenceRetries - 1) (SubmitTransactionResult.empty, 1, envelope) st1
      rwa [hq] at this
    exact htrans p0 p1

theorem tokenQuiet_resolveTokenAccounts (g : Call → Bool)
    (hg : ∀ k, g (Call.resolveAccounts k) = false)
    (c : ClientOpts) (a : Key) (st : St) :
    PreservesVK g st ((resolveTokenAccounts c a st).2) :=
  inv_resolveTokenAccounts (PreservesVK g)
    (fun h1 h2 => preservesVK_trans g h1 h2)
    (preservesVK_refl g)
    (fun _ _ => ⟨rfl, rfl⟩)
    (fun _ _ _ => ⟨rfl, rfl⟩)
    (fun k st' => preserves_internalResolveTokenAccounts g k hg st')
    c a st

theorem tokenQuiet_signAndSubmitTx (g : Call → Bool)
    (hg1 : g Call.getRecentBlockhash = false)
    (hg2 : ∀ tx' il' cm' d', g (Call.submitSolana tx' il' cm' d') = false)
    (c : ClientOpts) (signers : List PrivateKey) (tx : SolanaTx) (cm : Nat)
    (il : Option InvoiceList) (d : List Nat) (st : St) :
    PreservesVK g st ((signAndSubmitTx c signers tx cm il d st).2) :=
  inv_signAndSubmitTx (PreservesVK g) (fun h1 h2 => preservesVK_trans g h1 h2)
    c signers tx cm il d
    (fun s st' => preserves_solanaStep g signers il cm d hg1 hg2 s st') st

theorem tokenQuiet_submitSolanaPayment (g : Call → Bool)
    (hg1 : g Call.getRecentBlockhash = false)
    (hg2 : ∀ tx' il' cm' d', g (Call.submitSolana tx' il' cm' d') = false)
    (c : ClientOpts) (payment : Payment) (config : ServiceConfig) (cm : Nat)
    (ts : Option Key) (sub : Option PrivateKey) (st : St) :
    PreservesVK g st ((submitSolanaPayment c payment config cm ts sub st).2) :=
  inv_submitSolanaPayment (PreservesVK g) (preservesVK_refl g)
    c payment config cm ts sub
    (fun signers tx il d st' => tokenQuiet_signAndSubmitTx g hg1 hg2 c signers tx cm il d st') st

theorem tokenQuiet_submitPaymentWithResolution (g : Call → Bool)
    (hg1 : g Call.getRecentBlockhash = false)
    (hg2 : ∀ tx' il' cm' d', g (Call.submitSolana tx' il' cm' d') = false)
    (hg3 : ∀ k, g (Call.resolveAccounts k) = false)
    (hg4 : g Call.getServiceConfig = false)
    (c : ClientOpts) (payment : Payment) (o : SolanaOpts) (st : St) :
    PreservesVK g st ((submitPaymentWithResolution c payment o st).2) :=
  inv_submitPaymentWithResolution (PreservesVK g)
    (fun h1 h2 => preservesVK_trans g h1 h2)
    c payment o
    (fun st' => preserves_getServiceConfig g hg4 st')
    (fun pay cfg ts sub st' =>
      tokenQuiet_submitSolanaPayment g hg1 hg2 c pay cfg o.commitment ts sub st')
    (fun a st' => tokenQuiet_resolveTokenAccounts g hg3 c a st')
    st

theorem legacyQuiet_signAndSubmitXDR (g : Call → Bool)
    (hg1 : ∀ k, g (Call.getStellarAccountInfo k) = false)
    (hg2 : ∀ e', g (Call.submitStellar e') = false)
    (c : ClientOpts) (signers : List PrivateKey) (envelope : Envelope)
    (il : Option InvoiceList) (st : St) :
    PreservesVK g st ((signAndSubmitXDR c signers envelope il st).2) :=
  inv_signAndSubmitXDR (PreservesVK g) (fun h1 h2 => preservesVK_trans g h1 h2)
    c signers envelope il
    (fun a st' => preserves_getStellarAccountInfo g a hg1 st')
    (fun seq s st' => preserves_xdrStep g c signers il seq hg2 s st')
    st

/-! ## Claim theorems -/

/-- C3: every `SubmitPayment` call surfaces exactly one error category, the
first non-empty one in the order transport/RPC error, per-operation payment
error, top-level transaction error, invoice error; later categories are never
reported when an earlier one is non-empty.  Stated of `paymentResultToCaller`,
the outcome mapping every `SubmitPayment` submission flows through. -/
theorem spec_C3 (result : SubmitTransactionResult) (err : Option Err) :
    (∀ e, err = some e →
      paymentResultToCaller result err = (result.id, some e))
    ∧ (err = none → ∀ pe pes, result.errors.paymentErrors = pe :: pes →
      paymentResultToCaller result err =
        (result.id, some (if pes = [] then pe
          else .message "invalid number of payment errors")))
    ∧ (err = none → result.errors.paymentErrors = [] →
      ∀ t, result.errors.txError = some t →
      paymentResultToCaller result err = (result.id, some t))
    ∧ (err = none → result.errors.paymentErrors = [] →
      result.errors.txError = none →
      ∀ ie ies, result.invoiceErrors = ie :: ies →
      paymentResultToCaller result err =
        (result.id, some (if ies = [] then invoiceErrorFromProto ie
          else .message "invalid number of invoice errors")))
    ∧ (err = none → result.errors.paymentErrors = [] →
      result.errors.txError = none → result.invoiceErrors = [] →
      paymentResultToCaller result err = (result.id, none)) := by
  refine ⟨?_, ?_, ?_, ?_, ?_⟩
  · rintro e rfl; rfl
  · rintro rfl pe pes hpe
    cases pes with
    | nil => simp [paymentResultToCaller, hpe]
    | cons q qs => simp [paymentResultToCaller, hpe]
  · rintro rfl hpe t ht
    simp [paymentResultToCaller, hpe, ht]
  · rintro rfl hpe ht ie ies hie
    cases ies with
    | nil => simp [paymentResultToCaller, hpe, ht, hie]
    | cons q qs => simp [paymentResultToCaller, hpe, ht, hie]
  · rintro rfl hpe ht hie
    simp [paymentResultToCaller, hpe, ht, hie]

theorem spec_C3_witness :
    (some Err.accountDoesNotExist : Option Err) = some Err.accountDoesNotExist ∧
    paymentResultToCaller testAdneResult (some Err.accountDoesNotExist) =
      (testAdneResult.id, some Err.accountDoesNotExist) :=
  ⟨rfl, (spec_C3 testAdneResult (some Err.accountDoesNotExist)).1
    Err.accountDoesNotExist rfl⟩

/-- C6: memo selection of every assembled payment transaction, on both
ledgers: a non-empty plain text memo is emitted verbatim; otherwise with a
positive app index a structured memo is emitted carrying format version 1,
the payment-type tag, the app index, and the SHA-224 hash of the serialized
single-invoice list (28 zero bytes when there is no invoice); otherwise no
memo is emitted.  (`sha224` producing 28-byte digests is the boundary
assumption on the real SHA-224.) -/
theorem spec_C6 (c : ClientOpts) (kv : Nat) (payment : Payment)
    (serialize : InvoiceList → List Nat) (sha224 : List Nat → List Nat)
    (hsha : ∀ bs, (sha224 bs).length = 28) :
    (payment.memo ≠ "" →
      buildLegacyPaymentTx c kv payment serialize sha224 =
        .ok ({ legacyPaymentBase c kv payment with memo := .text payment.memo },
          none)
      ∧ solanaPaymentInstructions c payment serialize sha224 =
        .ok ([.memoText payment.memo], none))
    ∧ (payment.memo = "" → 0 < c.appIndex → ∀ inv, payment.invoice = some inv →
      buildLegacyPaymentTx c kv payment serialize sha224 =
        .ok ({ legacyPaymentBase c kv payment with
                memo := .hash ⟨1, payment.paymentType, c.appIndex,
                  sha224 (serialize [some inv])⟩ }, some [some inv])
      ∧ solanaPaymentInstructions c payment serialize sha224 =
        .ok ([.memoKin ⟨1, payment.paymentType, c.appIndex,
          sha224 (serialize [some inv])⟩], some [some inv]))
    ∧ (payment.memo = "" → 0 < c.appIndex → payment.invoice = none →
      buildLegacyPaymentTx c kv payment serialize sha224 =
        .ok ({ legacyPaymentBase c kv payment with
                memo := .hash ⟨1, payment.paymentType, c.appIndex,
                  List.replicate 28 0⟩ }, none)
      ∧ solanaPaymentInstructions c payment serialize sha224 =
        .ok ([.memoKin ⟨1, payment.paymentType, c.appIndex,
          List.replicate 28 0⟩], none))
    ∧ (payment.memo = "" → c.appIndex = 0 →
      buildLegacyPaymentTx c kv payment serialize sha224 =
        .ok (legacyPaymentBase c kv payment, none)
      ∧ solanaPaymentInstructions c payment serialize sha224 = .ok ([], none)) := by
  refine ⟨?_, ?_, ?_, ?_⟩
  · intro hm
    constructor <;> simp [buildLegacyPaymentTx, solanaPaymentInstructions, hm]
  · intro hm hai inv hinv
    have hlen : ¬(7 < 1 ∨ 29 < (sha224 (serialize [some inv])).length) := by
      simp [hsha]
    constructor <;>
      simp [buildLegacyPaymentTx, solanaPaymentInstructions, hm, hai,
        Nat.pos_iff_ne_zero.mp hai, hinv, newMemo, hlen, hsha]
  · intro hm hai hinv
    have hlen : ¬(7 < 1 ∨ 29 < (List.replicate 28 (0 : Nat)).length) := by simp
    constructor <;>
      simp [buildLegacyPaymentTx, solanaPaymentInstructions, hm, hai,
        Nat.pos_iff_ne_zero.mp hai, hinv, newMemo, hlen, hsha]
  · intro hm hai
    constructor <;>
      simp [buildLegacyPaymentTx, solanaPaymentInstructions, hm, hai]

theorem spec_C6_witness :
    (∀ bs : List Nat, ((fun bs : List Nat =>
        List.replicate 27 0 ++ [bs.length % 256]) bs).length = 28) ∧
    ("pay" : String) ≠ "" ∧
    buildLegacyPaymentTx testOpts 3 { testPayment with memo := "pay" }
        (fun il => il.map (fun o => o.getD 0))
        (fun bs => List.replicate 27 0 ++ [bs.length % 256]) =
      .ok ({ legacyPaymentBase testOpts 3 { testPayment with memo := "pay" } with
              memo := .text "pay" }, none) := by
  refine ⟨fun bs => by simp, by decide, ?_⟩
  exact (spec_C6 testOpts 3 { testPayment with memo := "pay" } _ _
    (fun bs => by simp)).1 (by decide) |>.1

theorem mixedInvoices_any : ∀ (l : List Earn), mixedInvoices l = true →
    l.any (fun e => e.invoice.isSome) = true
  | [], h => by simp [mixedInvoices] at h
  | [a], h => by simp [mixedInvoices] at h
  | a :: b :: rest, h => by
    rw [mixedInvoices] at h
    have h2 : (a.invoice.isNone != b.invoice.isNone) = true ∨
        mixedInvoices (b :: rest) = true := by simpa using h
    rcases h2 with h' | h'
    · cases ha : a.invoice <;> cases hb : b.invoice <;>
        simp_all [List.any_cons]
    · have := mixedInvoices_any (b :: rest) h'
      simp_all [List.any_cons]

/-- C5: `SubmitEarnBatch` rejects invalid batch shapes before any network
call: a batch with 0 earns, with more than 15 earns, mixing invoice and
no-invoice earns, combining a text memo with any invoice, or carrying
invoices under app index 0, is answered by the validation error with the
state (in particular the call trace) completely unchanged. -/
theorem spec_C5 (c : ClientOpts) (batch : EarnBatch)
    (opts : List (SolanaOpts → SolanaOpts)) (st : St) (earns : List Earn)
    (hearns : st.heap.getD batch.earns [] = earns)
    (hkv1 : 2 ≤ st.kinVersion) (hkv2 : st.kinVersion ≤ 4)
    (hshape : earns.length = 0 ∨ 15 < earns.length
      ∨ (batch.memo ≠ "" ∧ earns.any (fun e => e.invoice.isSome) = true)
      ∨ (batch.memo = "" ∧ (∀ e ∈ earns, e.invoice.isSome = true) ∧
          earns ≠ [] ∧ c.appIndex = 0)
      ∨ mixedInvoices earns = true) :
    (earnBatchValidationError c batch.memo earns).isSome = true
    ∧ SubmitEarnBatch c batch opts st =
        ((EarnBatchResult.empty, earnBatchValidationError c batch.memo earns),
          st) := by
  have hval : (earnBatchValidationError c batch.memo earns).isSome = true := by
    unfold earnBatchValidationError
    by_cases h1 : earns.length = 0
    · rw [if_pos h1]; rfl
    · rw [if_neg h1]
      by_cases h2 : 15 < earns.length
      · rw [if_pos h2]; rfl
      · rw [if_neg h2]
        by_cases h3 : batch.memo ≠ ""
        · rw [if_pos h3]
          have hany : earns.any (fun e => e.invoice.isSome) = true := by
            rcases hshape with h | h | h | h | h
            · exact absurd h h1
            · exact absurd h h2
            · exact h.2
            · exact absurd h.1 h3
            · exact mixedInvoices_any earns h
          rw [if_pos hany]; rfl
        · rw [if_neg h3]
          have h3' : batch.memo = "" := not_not.mp h3
          by_cases h4 : (earns.headD default).invoice.isSome = true ∧
              c.appIndex = 0
          · rw [if_pos h4]; rfl
          · rw [if_neg h4]
            have hmix : mixedInvoices earns = true := by
              rcases hshape with h | h | h | h | h
              · exact absurd h h1
              · exact absurd h h2
              · exact absurd h3' h.1
              · exfalso
                apply h4
                rcases h with ⟨hm, hall, hne, hz⟩
                refine ⟨?_, hz⟩
                cases he : earns with
                | nil => exact absurd he hne
                | cons e0 rest =>
                  have := hall e0 (by rw [he]; exact List.mem_cons_self e0 rest)
                  simp [he, this]
              · exact h
            rw [if_pos hmix]; rfl
  refine ⟨hval, ?_⟩
  rcases Option.isSome_iff_exists.mp hval with ⟨e, he⟩
  have hv : ¬(4 < st.kinVersion ∨ st.kinVersion < 2) := by omega
  unfold SubmitEarnBatch
  simp only [run_bind, run_pure, getKinVersion, heapGet]
  rw [if_neg hv]
  try dsimp only
  try simp only [run_bind, run_pure, heapGet]
  rw [hearns, he]
  rfl

theorem spec_C5_witness :
    ((0 : Nat) = 0 ∨ 15 < 0 ∨ False ∨ False ∨ False) ∧
    (earnBatchValidationError testOpts "" []).isSome = true ∧
    SubmitEarnBatch testOpts ⟨⟨1, 2⟩, none, "", 0, []⟩ []
        { testSt with heap := [[]] } =
      ((EarnBatchResult.empty, earnBatchValidationError testOpts "" []),
        { testSt with heap := [[]] }) := by
  have h := spec_C5 testOpts ⟨⟨1, 2⟩, none, "", 0, []⟩ []
    { testSt with heap := [[]] } [] rfl (by decide) (by decide) (Or.inl rfl)
  exact ⟨Or.inl rfl, h.1, h.2⟩

theorem cacheLookup_cacheErase (cache : List (Key × TokenAccountEntry))
    (k : Key) : cacheLookup (cacheErase cache k) k = none := by
  induction cache with
  | nil => rfl
  | cons p rest ih =>
    rcases p with ⟨k', e⟩
    by_cases h : k' = k
    · simp [cacheErase, h, ih]
    · simp [cacheErase, cacheLookup, h, ih]

theorem resolveStep_count (a : Key) (s : List Key) (st : St) :
    countCalls isResolveCall ((resolveStep a s st).2.trace)
      = countCalls isResolveCall st.trace + 1 := by
  unfold resolveStep internalResolveTokenAccounts
  rcases st.env.resolveResponses with _ | ⟨_ | _, rest⟩ <;>
    exact countCalls_snoc_true _ _ _ rfl

theorem retryGo_resolve_count (a : Key) (retr : Err → Bool) :
    ∀ (n : Nat) (s : List Key) (st : St),
      countCalls isResolveCall st.trace + 1 ≤
        countCalls isResolveCall
          ((retryGo retr (resolveStep a) s n st).2.trace) := by
  intro n
  induction n with
  | zero => intro s st; exact le_of_eq (resolveStep_count a s st).symm
  | succ n ih =>
    intro s st
    rw [retryGo]
    rcases h : (resolveStep a s st).1 with ⟨s', e⟩
    cases e with
    | none =>
      simp only [h]
      exact le_of_eq (resolveStep_count a s st).symm
    | some e =>
      by_cases hr : retr e
      · simp only [h, hr, if_true]
        calc countCalls isResolveCall st.trace + 1
            = countCalls isResolveCall ((resolveStep a s st).2.trace) :=
              (resolveStep_count a s st).symm
          _ ≤ countCalls isResolveCall ((resolveStep a s st).2.trace) + 1 :=
              Nat.le_succ _
          _ ≤ _ := ih s' ((resolveStep a s st).2)
      · simp only [h, hr, Bool.false_eq_true, if_false]
        exact le_of_eq (resolveStep_count a s st).symm

theorem retryGo_first_terminal {σ : Type} (retr : Err → Bool)
    (f : σ → M (σ × Option Err)) (s : σ) (st st₁ : St) (s' : σ) (e : Err)
    (hf : f s st = ((s', some e), st₁)) (hr : retr e = false) :
    ∀ n, retryGo retr f s n st = ((s', some e), st₁) := by
  intro n
  cases n with
  | zero => exact hf
  | succ n =>
    show (match (f s st).1 with
      | (s', none) => ((s', none), (f s st).2)
      | (s', some e) =>
        if retr e then retryGo retr f s' n (f s st).2
        else ((s', some e), (f s st).2)) = _
    simp only [hf, hr]
    simp [hf]

theorem resolveTokenAccounts_miss_fetches (c : ClientOpts) (a : Key) (st : St)
    (hl : cacheLookup st.cache a = none) :
    countCalls isResolveCall st.trace + 1 ≤
      countCalls isResolveCall ((resolveTokenAccounts c a st).2.trace) := by
  unfold resolveTokenAccounts retryRetry
  simp only [run_bind, run_pure, cacheGet, hl]
  rcases hq : retryGo (· == Err.noTokenAccounts) (resolveStep a) []
      (c.maxRetries - 1) st with ⟨⟨accounts, e⟩, st''⟩
  simp only [hq]
  have hc : countCalls isResolveCall st.trace + 1 ≤
      countCalls isResolveCall st''.trace := by
    have := retryGo_resolve_count a (· == Err.noTokenAccounts)
      (c.maxRetries - 1) [] st
    rwa [hq] at this
  by_cases hz : accounts.length = 0 <;>
    simp only [hz, if_true, if_false, run_bind, run_pure] <;> exact hc

/-- C7: token-account resolution never serves a stale cache entry: a cache
entry younger than 5 minutes is served with no state change at all (no
network call); an entry at least 5 minutes old is evicted — the run is the
same as a run with the entry already erased — and at least one network
resolution query is issued. -/
theorem spec_C7 (c : ClientOpts) (a : Key) (st : St)
    (entry : TokenAccountEntry)
    (hl : cacheLookup st.cache a = some entry) :
    (st.env.now - entry.created < 5 * 60 →
      resolveTokenAccounts c a st = ((entry.accounts, none), st))
    ∧ (¬st.env.now - entry.created < 5 * 60 →
      resolveTokenAccounts c a st =
        resolveTokenAccounts c a { st with cache := cacheErase st.cache a }
      ∧ countCalls isResolveCall st.trace + 1 ≤
          countCalls isResolveCall ((resolveTokenAccounts c a st).2.trace)) := by
  constructor
  · intro ht
    unfold resolveTokenAccounts
    simp only [run_bind, run_pure, cacheGet, getNow, hl]
    rw [if_pos ht]
    rfl
  · intro ht
    have heq : resolveTokenAccounts c a st =
        resolveTokenAccounts c a { st with cache := cacheErase st.cache a } := by
      conv_lhs => unfold resolveTokenAccounts
      conv_rhs => unfold resolveTokenAccounts
      simp only [run_bind, run_pure, cacheGet, getNow, hl, cacheRemove,
        cacheLookup_cacheErase]
      rw [if_neg ht]
      rfl
    refine ⟨heq, ?_⟩
    rw [heq]
    have := resolveTokenAccounts_miss_fetches c a
      { st with cache := cacheErase st.cache a } (cacheLookup_cacheErase _ _)
    simpa using this

theorem spec_C7_witness :
    cacheLookup [((5 : Key), (⟨900, [31]⟩ : TokenAccountEntry))] 5 =
      some ⟨900, [31]⟩ ∧
    (1000 : Nat) - 900 < 5 * 60 ∧
    resolveTokenAccounts testOpts 5
        { testSt with cache := [(5, ⟨900, [31]⟩)] } =
      (([31], none), { testSt with cache := [(5, ⟨900, [31]⟩)] }) := by
  refine ⟨by decide, by decide, ?_⟩
  exact (spec_C7 testOpts 5 { testSt with cache := [(5, ⟨900, [31]⟩)] }
    ⟨900, [31]⟩ (by decide)).1 (by decide)

theorem resolveLoop_cache_now (a : Key) (retr : Err → Bool) (n : Nat)
    (s : List Key) (st : St) :
    ((retryGo retr (resolveStep a) s n st).2.cache = st.cache
      ∧ (retryGo retr (resolveStep a) s n st).2.env.now = st.env.now) := by
  have := retryGo_inv
    (fun st st' => st'.cache = st.cache ∧ st'.env.now = st.env.now)
    (fun h1 h2 => ⟨h2.1.trans h1.1, h2.2.trans h1.2⟩)
    retr (resolveStep a)
    (fun s st' => by
      unfold resolveStep internalResolveTokenAccounts
      rcases st'.env.resolveResponses with _ | ⟨_ | _, rest⟩ <;> exact ⟨rfl, rfl⟩)
    n s st
  exact this

/-- C10: the internal token-account resolution always reports success: the
returned error is `none` on every run, including when the network query
fails with a non-retriable transport error (the empty list is returned and
the error is swallowed); after a cache miss an empty result is never cached
while a non-empty result is cached under the current time. -/
theorem spec_C10 (c : ClientOpts) (a : Key) (st : St) :
    (resolveTokenAccounts c a st).1.2 = none
    ∧ (cacheLookup st.cache a = none →
      ∀ e rest, st.env.resolveResponses = .error e :: rest →
        (e == Err.noTokenAccounts) = false →
        resolveTokenAccounts c a st =
          (([], none),
            { st with
                env := { st.env with resolveResponses := rest }
                trace := st.trace ++ [.resolveAccounts a] }))
    ∧ (cacheLookup st.cache a = none →
      ((resolveTokenAccounts c a st).1.1 = [] →
        cacheLookup ((resolveTokenAccounts c a st).2.cache) a = none)
      ∧ ((resolveTokenAccounts c a st).1.1 ≠ [] →
        cacheLookup ((resolveTokenAccounts c a st).2.cache) a =
          some ⟨st.env.now, (resolveTokenAccounts c a st).1.1⟩)) := by
  refine ⟨?_, ?_, ?_⟩
  · unfold resolveTokenAccounts retryRetry
    cases hl : cacheLookup st.cache a with
    | some entry =>
      simp only [run_bind, run_pure, cacheGet, getNow, hl]
      by_cases ht : st.env.now - entry.created < 5 * 60
      · rw [if_pos ht]; rfl
      · rw [if_neg ht]
        try dsimp only
        try simp only [run_bind, run_pure, cacheRemove]
        rcases hq : retryGo (· == Err.noTokenAccounts) (resolveStep a) []
            (c.maxRetries - 1) { st with cache := cacheErase st.cache a }
          with ⟨⟨accounts, e⟩, st''⟩
        simp only [hq]
        by_cases hz : accounts.length = 0 <;>
          simp [hz]
    | none =>
      simp only [run_bind, run_pure, cacheGet, hl]
      rcases hq : retryGo (· == Err.noTokenAccounts) (resolveStep a) []
          (c.maxRetries - 1) st with ⟨⟨accounts, e⟩, st''⟩
      simp only [hq]
      by_cases hz : accounts.length = 0 <;> simp [hz]
  · intro hl e rest hresp hne
    have hfirst : resolveStep a [] st =
        (([], some e),
          { st with
              env := { st.env with resolveResponses := rest }
              trace := st.trace ++ [.resolveAccounts a] }) := by
      unfold resolveStep internalResolveTokenAccounts
      rw [hresp]
    unfold resolveTokenAccounts retryRetry
    simp only [run_bind, run_pure, cacheGet, hl]
    rw [retryGo_first_terminal (· == Err.noTokenAccounts) (resolveStep a) []
      st _ _ e hfirst hne (c.maxRetries - 1)]
    rfl
  · intro hl
    unfold resolveTokenAccounts retryRetry
    simp only [run_bind, run_pure, cacheGet, hl]
    rcases hq : retryGo (· == Err.noTokenAccounts) (resolveStep a) []
        (c.maxRetries - 1) st with ⟨⟨accounts, e⟩, st''⟩
    simp only [hq]
    have hpres := resolveLoop_cache_now a (· == Err.noTokenAccounts)
      (c.maxRetries - 1) [] st
    rw [hq] at hpres
    have hc : st''.cache = st.cache := hpres.1
    have hn : st''.env.now = st.env.now := hpres.2
    by_cases hz : accounts.length = 0
    · simp only [hz, if_true, run_bind, run_pure]
      constructor
      · intro _
        rw [hc]
        exact hl
      · intro hne
        exact absurd rfl hne
    · simp only [hz, if_false, run_bind, run_pure]
      constructor
      · intro hacc
        exact absurd (by rw [hacc]; rfl) hz
      · intro _
        simp [cacheAdd, cacheLookup, hc, hn]

theorem spec_C10_witness :
    cacheLookup testSt.cache 5 = none ∧
    resolveTokenAccounts testOpts 5
        { testSt with
            env := { testEnv with
              resolveResponses := [Except.error (Err.grpcStatus 13)] } } =
      (([], none),
        { testSt with
            env := { testEnv with resolveResponses := [] }
            trace := [Call.resolveAccounts 5] }) := by
  refine ⟨rfl, ?_⟩
  have h := (spec_C10 testOpts 5
    { testSt with
        env := { testEnv with
          resolveResponses := [Except.error (Err.grpcStatus 13)] } }).2.1
    rfl (Err.grpcStatus 13) [] rfl (by decide)
  simpa using h

/-- C8 (code-bug exhibit): resolved earn destinations are written through the
caller-shared `Earns` slice backing array.  A batch whose single earn pays
destination 5 is submitted; the submission reports AccountDoesNotExist, the
destination resolves to token account 31, and after the call the caller's
own backing array reads destination 31 instead of 5: the caller's
`EarnBatch.Earns` element was mutated.  (The caller's `Payment` value is
passed by value and cannot be affected; the slice write is the bug.) -/
theorem spec_C8 :
    ([(⟨5, 7, none⟩ : Earn)].map Earn.destination = [5])
    ∧ List.map Earn.destination
        ((submitEarnBatchWithResolution testOpts ⟨⟨1, 2⟩, none, "", 0, []⟩
            ⟨some 50⟩
            { commitment := 1, accountResolution := .exact
              destResolution := .preferred, subsidizer := none }
            { env := { testEnv with
                blockhashes := [(77, none), (78, none)]
                solanaSubmits := [(testAdneResult, none), (testOkResult, none)]
                resolveResponses := [Except.ok [31]] }
              kinVersion := 4, cache := [], heap := [[⟨5, 7, none⟩]]
              trace := [] }).2.heap.getD 0 [])
      = [31] := ⟨rfl, rfl⟩

theorem handlerFinish_ne_401 (d : WebhookDeps) (payments : List Nat) :
    (handlerFinish d payments).status ≠ 401 := by
  unfold handlerFinish
  by_cases h1 : (d.callback payments).userErr = true
  · simp [h1]
  · by_cases h2 : (d.callback payments).rejected = true <;> simp [h1, h2]

theorem signTransactionVersioned_ne_401 (d : WebhookDeps) (req : SignRequest) :
    (signTransactionVersioned d req).status ≠ 401 := by
  unfold signTransactionVersioned
  by_cases hv : req.kinVersion < 2 ∨ 4 < req.kinVersion
  · rw [if_pos hv]; decide
  · rw [if_neg hv]
    have hil : ∀ il : Option InvoiceList,
        ((if req.kinVersion = 4 then
            match d.unmarshalSolanaTx req.solanaTransaction with
            | none => (⟨400⟩ : HttpResponse)
            | some tx =>
              match d.parseSolanaPayments tx il with
              | .error _ => ⟨400⟩
              | .ok payments => handlerFinish d payments
          else
            match d.unmarshalEnvelope req.envelopeXdr with
            | none => ⟨400⟩
            | some env =>
              match d.parseEnvelopePayments env il req.kinVersion with
              | .error _ => ⟨400⟩
              | .ok payments => handlerFinish d payments) : HttpResponse).status
          ≠ 401 := by
      intro il
      by_cases h4 : req.kinVersion = 4
      · rw [if_pos h4]
        rcases d.unmarshalSolanaTx req.solanaTransaction with _ | tx
        · dsimp only; decide
        · dsimp only
          rcases d.parseSolanaPayments tx il with e | payments
          · dsimp only; decide
          · dsimp only; exact handlerFinish_ne_401 d _
      · rw [if_neg h4]
        rcases d.unmarshalEnvelope req.envelopeXdr with _ | env
        · dsimp only; decide
        · dsimp only
          rcases d.parseEnvelopePayments env il req.kinVersion with e | payments
          · dsimp only; decide
          · dsimp only; exact handlerFinish_ne_401 d _
    by_cases hn : 0 < req.invoiceList.length
    · rw [if_pos hn]
      rcases d.unmarshalInvoiceList req.invoiceList with _ | il
      · dsimp only; decide
      · dsimp only; exact hil (some il)

    · rw [if_neg hn]
      exact hil none

theorem signTransactionBody_ne_401 (d : WebhookDeps) (r : HttpRequest) :
    (signTransactionBody d r).status ≠ 401 := by
  unfold signTransactionBody
  rcases d.decodeSignRequest r.body with _ | req0
  · dsimp only; decide
  · dsimp only; exact signTransactionVersioned_ne_401 d _

/-- C9 counterexample: with an empty configured secret the handler skips
signature verification entirely.  A POST request carrying no
`X-Agora-HMAC-SHA256` header (so no signature matches the body's HMAC
digest) is processed to completion with status 200, not rejected with
401 as the claim requires. -/
theorem spec_C9_counterexample :
    (verifySignature (testDeps 3) "" [0] []).isSome = true
    ∧ SignTransactionHandler (testDeps 3) [] ⟨"POST", "", [0]⟩ = ⟨200⟩ :=
  ⟨rfl, rfl⟩

/-- C9 (amended): for POST requests, when the configured secret is
*non-empty* the handler responds 401 exactly when the HMAC-SHA256 digest of
the raw body keyed by the secret does not match the base64-decoded header
signature; and every request that passes the signature gate (non-empty
secret verified, or empty secret) and decodes to a ledger-version tag
outside 2..4 (after defaulting 0 to 3) is rejected with HTTP 400. -/
theorem spec_C9 (d : WebhookDeps) (secret : List Nat) (r : HttpRequest)
    (hpost : r.method = "POST") :
    (secret ≠ [] →
      ((SignTransactionHandler d secret r).status = 401 ↔
        (verifySignature d r.hmacHeader r.body secret).isSome = true))
    ∧ (∀ req0,
        secret = [] ∨ verifySignature d r.hmacHeader r.body secret = none →
        d.decodeSignRequest r.body = some req0 →
        ((if req0.kinVersion = 0 then 3 else req0.kinVersion) < 2 ∨
          4 < (if req0.kinVersion = 0 then 3 else req0.kinVersion)) →
        SignTransactionHandler d secret r = ⟨400⟩) := by
  have hm : ¬(r.method ≠ "POST") := by simp [hpost]
  constructor
  · intro hsec
    have hlen : 0 < secret.length := List.length_pos.mpr hsec
    unfold SignTransactionHandler
    rw [if_neg hm]
    by_cases hv : (verifySignature d r.hmacHeader r.body secret).isSome = true
    · rw [if_pos ⟨hlen, hv⟩]
      simp [hv]
    · rw [if_neg (fun h => hv h.2)]
      constructor
      · intro h401
        exact absurd h401 (signTransactionBody_ne_401 d r)
      · intro h
        exact absurd h hv
  · intro req0 hgate hdec hver
    unfold SignTransactionHandler
    rw [if_neg hm]
    have hcond : ¬(0 < secret.length ∧
        (verifySignature d r.hmacHeader r.body secret).isSome = true) := by
      rcases hgate with h | h
      · simp [h]
      · simp [h]
    rw [if_neg hcond]
    unfold signTransactionBody
    rw [hdec]
    by_cases hz : req0.kinVersion = 0
    · exfalso
      rw [if_pos hz] at hver
      rcases hver with h | h <;> omega
    · rw [if_neg hz] at hver
      try dsimp only
      rw [if_neg hz]
      unfold signTransactionVersioned
      rw [if_pos hver]

theorem spec_C9_witness :
    ([1] : List Nat) ≠ [] ∧
    ((SignTransactionHandler (testDeps 3) [1] ⟨"POST", "", [0]⟩).status = 401 ↔
      (verifySignature (testDeps 3) "" [0] [1]).isSome = true) := by
  refine ⟨by decide, ?_⟩
  exact (spec_C9 (testDeps 3) [1] ⟨"POST", "", [0]⟩ rfl).1 (by decide)

/-- C2: on a first Token-v4 submission outcome of AccountDoesNotExist (with
both resolution modes Preferred, their default), if neither the sender nor
the destination resolves to any token account the result carrying the
AccountDoesNotExist error is returned unchanged; if either resolves, the
first resolved sender account becomes the transfer sender and/or the first
resolved destination account replaces the destination, and the run ends
with exactly one resubmission (the continuation is a single
`submitSolanaPayment` call, with no further recursion on its outcome). -/
theorem spec_C2 (c : ClientOpts) (payment : Payment) (o : SolanaOpts) (st0 : St)
    (hA : o.accountResolution = AccountResolution.preferred)
    (hD : o.destResolution = AccountResolution.preferred)
    (config : ServiceConfig) (st1 : St)
    (hcfg : getServiceConfig st0 = ((config, none), st1))
    (hsub : ¬(config.subsidizerAccount = none ∧ o.subsidizer = none))
    (r1 : SubmitTransactionResult) (st2 : St)
    (h1 : submitSolanaPayment c payment config o.commitment none o.subsidizer st1
      = ((r1, none), st2))
    (hadne : r1.errors.txError = some Err.accountDoesNotExist)
    (sAcc : List Key) (st3 : St)
    (hs : resolveTokenAccounts c payment.sender.Public st2 = ((sAcc, none), st3))
    (dAcc : List Key) (st4 : St)
    (hd : resolveTokenAccounts c payment.destination st3 = ((dAcc, none), st4)) :
    (sAcc = [] → dAcc = [] →
      submitPaymentWithResolution c payment o st0 = ((r1, none), st4))
    ∧ (sAcc ≠ [] ∨ dAcc ≠ [] →
      submitPaymentWithResolution c payment o st0 =
        submitSolanaPayment c
          (match dAcc with
           | [] => payment
           | d :: _ => { payment with destination := d })
          config o.commitment sAcc.head? o.subsidizer st4) := by
  constructor
  · intro hsa hda
    subst hsa hda
    unfold submitPaymentWithResolution
    simp only [run_bind, run_pure, hcfg]
    try dsimp only
    rw [if_neg hsub]
    try simp only [run_bind, run_pure]
    simp only [h1]
    try dsimp only
    rw [if_pos hadne]
    try simp only [run_bind, run_pure]
    rw [if_pos hA]
    try simp only [run_bind, run_pure]
    simp only [hs]
    try dsimp only
    try simp only [run_bind, run_pure]
    rw [if_pos hD]
    try simp only [run_bind, run_pure]
    simp only [hd]
    try dsimp only
    rfl
  · intro hor
    rcases sAcc with _ | ⟨a, as⟩ <;> rcases dAcc with _ | ⟨b, bs⟩
    · exact absurd hor (by simp)
    all_goals
      unfold submitPaymentWithResolution
      simp only [run_bind, run_pure, hcfg]
      try dsimp only
      rw [if_neg hsub]
      try simp only [run_bind, run_pure]
      simp only [h1]
      try dsimp only
      rw [if_pos hadne]
      try simp only [run_bind, run_pure]
      rw [if_pos hA]
      try simp only [run_bind, run_pure]
      simp only [hs]
      try dsimp only
      try simp only [run_bind, run_pure]
      rw [if_pos hD]
      try simp only [run_bind, run_pure]
      simp only [hd]
      try dsimp only
      rfl

theorem spec_C2_witness :
    (SolanaOpts.mk 1 AccountResolution.preferred AccountResolution.preferred
        none).accountResolution = AccountResolution.preferred ∧
    (submitPaymentWithResolution testOpts testPayment
        ⟨1, .preferred, .preferred, none⟩
        { env := { testEnv with
            serviceConfigs := [(⟨some 50⟩, none)]
            blockhashes := [(77, none), (78, none)]
            solanaSubmits := [(testAdneResult, none), (testOkResult, none)]
            resolveResponses := [Except.ok [], Except.ok [], Except.ok [31]] }
          kinVersion := 4, cache := [], heap := [], trace := [] }).1 =
      (testOkResult, none) := by
  refine ⟨rfl, ?_⟩
  rw [(spec_C2 testOpts testPayment ⟨1, .preferred, .preferred, none⟩
    { env := { testEnv with
        serviceConfigs := [(⟨some 50⟩, none)]
        blockhashes := [(77, none), (78, none)]
        solanaSubmits := [(testAdneResult, none), (testOkResult, none)]
        resolveResponses := [Except.ok [], Except.ok [], Except.ok [31]] }
      kinVersion := 4, cache := [], heap := [], trace := [] }
    rfl rfl ⟨some 50⟩ _ rfl (by simp) testAdneResult _ rfl rfl
    [] _ rfl [31] _ rfl).2 (Or.inr (by decide))]
  rfl

/-- C1 counterexample: a legacy `SubmitEarnBatch` whose submission fails
with the ledger-migrated FailedPrecondition signal performs no version
transition and no token-ledger resubmission: the client stays on version 3,
makes no solana submission, and returns the raw gRPC error — contradicting
the claim that every submission (SubmitPayment *or* SubmitEarnBatch)
upgrades and resubmits. -/
theorem spec_C1_counterexample :
    statusCode (Err.grpcStatus 9) = grpcFailedPrecondition
    ∧ (SubmitEarnBatch testOpts ⟨⟨1, 2⟩, none, "", 0, []⟩ []
        { env := { testEnv with
            stellarAccountInfos := [(⟨10, 5⟩, none)]
            stellarSubmits := [(SubmitTransactionResult.empty,
              some (Err.grpcStatus 9))] }
          kinVersion := 3, cache := [], heap := [[⟨5, 7, none⟩]]
          trace := [] }).1
      = (EarnBatchResult.empty, some (Err.grpcStatus 9))
    ∧ (SubmitEarnBatch testOpts ⟨⟨1, 2⟩, none, "", 0, []⟩ []
        { env := { testEnv with
            stellarAccountInfos := [(⟨10, 5⟩, none)]
            stellarSubmits := [(SubmitTransactionResult.empty,
              some (Err.grpcStatus 9))] }
          kinVersion := 3, cache := [], heap := [[⟨5, 7, none⟩]]
          trace := [] }).2.kinVersion = 3
    ∧ countCalls isSolanaSubmit
        ((SubmitEarnBatch testOpts ⟨⟨1, 2⟩, none, "", 0, []⟩ []
          { env := { testEnv with
              stellarAccountInfos := [(⟨10, 5⟩, none)]
              stellarSubmits := [(SubmitTransactionResult.empty,
                some (Err.grpcStatus 9))] }
            kinVersion := 3, cache := [], heap := [[⟨5, 7, none⟩]]
            trace := [] }).2.trace) = 0 :=
  ⟨rfl, rfl, rfl, rfl⟩

/-- C1 (amended): a legacy `SubmitPayment` submission failing with the
ledger-migrated FailedPrecondition signal performs the version transition
exactly once — the rest of the call is exactly one token-ledger
resubmission of the same payment, after which the version is still 4 and no
further legacy submission is made; `SubmitEarnBatch`, by contrast, performs
no transition: it returns the FailedPrecondition error unchanged, leaves
the version where it was, and makes no token-ledger submission. -/
theorem spec_C1 (c : ClientOpts) (payment : Payment)
    (opts : List (SolanaOpts → SolanaOpts)) (st0 : St)
    (hkv : st0.kinVersion = 2 ∨ st0.kinVersion = 3)
    (hinv : ¬(payment.invoice.isSome ∧ c.appIndex = 0))
    (envl : Envelope) (il : Option InvoiceList)
    (hbuild : buildLegacyPaymentTx c st0.kinVersion payment
      st0.env.serializeInvoiceList st0.env.sha224 = .ok (envl, il))
    (r1 : SubmitTransactionResult) (e : Err) (st1 : St)
    (hxdr : signAndSubmitXDR c (legacySigners payment.sender payment.channel)
      envl il st0 = ((r1, some e), st1))
    (hfp : statusCode e = grpcFailedPrecondition) :
    (SubmitPayment c payment opts st0 =
      ((paymentResultToCaller
          (submitPaymentWithResolution c payment
            (applySolanaOpts (defaultSubmitOpts c) opts)
            { st1 with kinVersion := 4 }).1.1
          (submitPaymentWithResolution c payment
            (applySolanaOpts (defaultSubmitOpts c) opts)
            { st1 with kinVersion := 4 }).1.2),
        (submitPaymentWithResolution c payment
          (applySolanaOpts (defaultSubmitOpts c) opts)
          { st1 with kinVersion := 4 }).2))
    ∧ (submitPaymentWithResolution c payment
        (applySolanaOpts (defaultSubmitOpts c) opts)
        { st1 with kinVersion := 4 }).2.kinVersion = 4
    ∧ countCalls isStellarSubmit
        ((submitPaymentWithResolution c payment
          (applySolanaOpts (defaultSubmitOpts c) opts)
          { st1 with kinVersion := 4 }).2.trace)
        = countCalls isStellarSubmit st1.trace
    ∧ (∀ (batch : EarnBatch) (opts' : List (SolanaOpts → SolanaOpts))
        (st0' : St) (earns : List Earn),
        st0'.heap.getD batch.earns [] = earns →
        st0'.kinVersion = 2 ∨ st0'.kinVersion = 3 →
        earnBatchValidationError c batch.memo earns = none →
        ∀ (envl' : Envelope) (il' : Option InvoiceList)
          (r' : SubmitTransactionResult) (e' : Err) (st1' : St),
          buildLegacyEarnBatchMemo c batch.memo earns
            (legacyEarnBatchBase c st0'.kinVersion batch earns)
            st0'.env.serializeInvoiceList st0'.env.sha224 = .ok (envl', il') →
          signAndSubmitXDR c (legacySigners batch.sender batch.channel)
            envl' il' st0' = ((r', some e'), st1') →
          statusCode e' = grpcFailedPrecondition →
          SubmitEarnBatch c batch opts' st0' =
            ((EarnBatchResult.empty, some e'), st1')
          ∧ st1'.kinVersion = st0'.kinVersion
          ∧ countCalls isSolanaSubmit st1'.trace =
              countCalls isSolanaSubmit st0'.trace) := by
  have hquiet := tokenQuiet_submitPaymentWithResolution isStellarSubmit rfl
    (fun _ _ _ _ => rfl) (fun _ => rfl) rfl c payment
    (applySolanaOpts (defaultSubmitOpts c) opts) { st1 with kinVersion := 4 }
  refine ⟨?_, ?_, ?_, ?_⟩
  · have hv : ¬(4 < st0.kinVersion ∨ st0.kinVersion < 2) := by
      rcases hkv with h | h <;> omega
    have h4 : ¬st0.kinVersion = 4 := by rcases hkv with h | h <;> omega
    unfold SubmitPayment
    simp only [run_bind, run_pure, getKinVersion]
    rw [if_neg hv]
    try dsimp only
    rw [if_neg hinv]
    try simp only [run_bind, run_pure]
    rw [if_neg h4]
    try simp only [run_bind, run_pure, buildLegacyPaymentTxM]
    rw [hbuild]
    try dsimp only
    try simp only [run_bind, run_pure]
    simp only [hxdr]
    try dsimp only
    rw [if_pos hfp]
    try simp only [run_bind, run_pure, setKinVersion]
    try rfl
  · exact hquiet.1
  · exact hquiet.2
  · intro batch opts' st0' earns hearns hkv' hval envl' il' r' e' st1'
      hbuild' hxdr' hfp'
    have hv' : ¬(4 < st0'.kinVersion ∨ st0'.kinVersion < 2) := by
      rcases hkv' with h | h <;> omega
    have h23 : st0'.kinVersion = 2 ∨ st0'.kinVersion = 3 := hkv'
    have hquiet' := legacyQuiet_signAndSubmitXDR isSolanaSubmit
      (fun _ => rfl) (fun _ => rfl) c
      (legacySigners batch.sender batch.channel) envl' il' st0'
    rw [hxdr'] at hquiet'
    refine ⟨?_, hquiet'.1, hquiet'.2⟩
    have hg1 : (heapGet batch.earns st0').1 = earns := hearns
    have hg2 : (heapGet batch.earns st0').2 = st0' := rfl
    unfold SubmitEarnBatch
    simp only [run_bind, run_pure, getKinVersion]
    rw [if_neg hv']
    try dsimp only
    try simp only [run_bind, run_pure]
    try rw [hg1]
    try rw [hg2]
    rw [hval]
    try dsimp only
    try simp only [run_bind, run_pure]
    rw [if_pos h23]
    unfold submitEarnBatch
    simp only [run_bind, run_pure, getKinVersion, buildLegacyEarnBatchMemoM]
    try rw [hg1]
    try rw [hg2]
    rw [hbuild']
    try dsimp only
    try simp only [run_bind, run_pure]
    simp only [hxdr']
    try dsimp only
    try rfl

/-- C1 witness: the migration scenario run concretely — a Kin 3 client whose
legacy submission fails with gRPC code 9 (FailedPrecondition) ends the call
on version 4 with the result of the successful token-ledger resubmission. -/
theorem spec_C1_witness :
    c1St0.kinVersion = 3
    ∧ (submitPaymentWithResolution testOpts testPayment
        (applySolanaOpts (defaultSubmitOpts testOpts) [])
        { c1St1 with kinVersion := 4 }).2.kinVersion = 4
    ∧ (SubmitPayment testOpts testPayment [] c1St0).2.kinVersion = 4
    ∧ (SubmitPayment testOpts testPayment [] c1St0).1 = ([42], none) := by
  have h := spec_C1 testOpts testPayment [] c1St0 (Or.inr rfl) (by decide)
    c1Envl none rfl SubmitTransactionResult.empty (Err.grpcStatus 9) c1St1
    rfl rfl
  refine ⟨rfl, h.2.1, ?_, ?_⟩
  · rw [h.1]
    exact h.2.1
  · rfl

theorem foldl_signEnvelope_seqNum :
    ∀ (l : List PrivateKey) (e : Envelope),
      (l.foldl signEnvelope e).seqNum = e.seqNum := by
  intro l
  induction l with
  | nil => intro e; rfl
  | cons a as ih => intro e; rw [List.foldl_cons, ih]; rfl

theorem signingRound_seqNum (c : ClientOpts) (signers : List PrivateKey)
    (e : Envelope) : (signingRound c signers e).seqNum = e.seqNum := by
  unfold signingRound
  rcases c.whitelistKey with _ | wl
  · exact foldl_signEnvelope_seqNum signers e
  · dsimp only
    by_cases h : signers.contains wl
    · rw [if_pos h]; exact foldl_signEnvelope_seqNum signers e
    · rw [if_neg h]
      show (signEnvelope (signers.foldl signEnvelope e) wl).seqNum = e.seqNum
      exact foldl_signEnvelope_seqNum signers e

theorem getStellarAccountInfo_cons (a : Key) (st : St)
    (info : StellarAccountInfo) (e : Option Err)
    (rest : List (StellarAccountInfo × Option Err))
    (h : st.env.stellarAccountInfos = (info, e) :: rest) :
    getStellarAccountInfo a st = ((info, e),
      { st with env := { st.env with stellarAccountInfos := rest }
                trace := st.trace ++ [Call.getStellarAccountInfo a] }) := by
  unfold getStellarAccountInfo
  simp only [h]

theorem submitStellarTransaction_trace (e : Envelope) (il : Option InvoiceList)
    (st : St) : ((submitStellarTransaction e il st).2).trace =
      st.trace ++ [Call.submitStellar e] := by
  unfold submitStellarTransaction
  rcases st.env.stellarSubmits with _ | ⟨r, rest⟩ <;> rfl

theorem xdrStep_state (c : ClientOpts) (signers : List PrivateKey)
    (il : Option InvoiceList) (seq : Int)
    (s : SubmitTransactionResult × Int × Envelope) (st : St) :
    (xdrStep c signers il seq s st).2 =
      (submitStellarTransaction
        (signingRound c signers { s.2.2 with seqNum := seq + s.2.1 })
        il st).2 := by
  unfold xdrStep
  rcases hq : submitStellarTransaction
      (signingRound c signers { s.2.2 with seqNum := seq + s.2.1 }) il st
    with ⟨⟨r, e⟩, st'⟩
  simp only [hq]

theorem xdrStep_submit_count (c : ClientOpts) (signers : List PrivateKey)
    (il : Option InvoiceList) (seq : Int)
    (s : SubmitTransactionResult × Int × Envelope) (st : St) :
    countCalls isStellarSubmit ((xdrStep c signers il seq s st).2.trace) =
      countCalls isStellarSubmit st.trace + 1 := by
  rw [xdrStep_state, submitStellarTransaction_trace]
  exact countCalls_snoc_true _ _ _ rfl

theorem xdrStep_infoFetch (c : ClientOpts) (signers : List PrivateKey)
    (il : Option InvoiceList) (seq : Int)
    (s : SubmitTransactionResult × Int × Envelope) (st : St) :
    countCalls isInfoFetch ((xdrStep c signers il seq s st).2.trace) =
      countCalls isInfoFetch st.trace := by
  rw [xdrStep_state, submitStellarTransaction_trace]
  exact countCalls_snoc_false _ _ _ rfl

theorem xdrStep_badNonce (c : ClientOpts) (signers : List PrivateKey)
    (il : Option InvoiceList) (seq : Int)
    (s : SubmitTransactionResult × Int × Envelope) (st : St)
    (resp : SubmitTransactionResult × Option Err)
    (rest : List (SubmitTransactionResult × Option Err))
    (h : st.env.stellarSubmits = resp :: rest)
    (hb : badNonceResp resp) :
    xdrStep c signers il seq s st =
      (((resp.1, s.2.1 + 1,
          signingRound c signers { s.2.2 with seqNum := seq + s.2.1 }),
        some Err.badNonce),
       { st with
         env := { st.env with stellarSubmits := rest }
         trace := st.trace ++ [Call.submitStellar
           (signingRound c signers { s.2.2 with seqNum := seq + s.2.1 })] }) := by
  rcases resp with ⟨r, e⟩
  obtain ⟨h1, h2⟩ := hb
  dsimp only at h1 h2
  subst h1
  unfold xdrStep submitStellarTransaction
  simp only [h]
  try dsimp only
  rw [if_pos h2]

theorem xdrStep_terminal (c : ClientOpts) (signers : List PrivateKey)
    (il : Option InvoiceList) (seq : Int)
    (s : SubmitTransactionResult × Int × Envelope) (st : St)
    (term : SubmitTransactionResult × Option Err)
    (rest : List (SubmitTransactionResult × Option Err))
    (h : st.env.stellarSubmits = term :: rest)
    (ht : terminalResp term) :
    xdrStep c signers il seq s st =
      (((term.1, s.2.1,
          signingRound c signers { s.2.2 with seqNum := seq + s.2.1 }),
        term.2),
       { st with
         env := { st.env with stellarSubmits := rest }
         trace := st.trace ++ [Call.submitStellar
           (signingRound c signers { s.2.2 with seqNum := seq + s.2.1 })] }) := by
  rcases term with ⟨r, e⟩
  unfold xdrStep submitStellarTransaction
  simp only [h]
  try dsimp only
  cases e with
  | some e' => rfl
  | none =>
    have hne : ¬(r.errors.txError = some Err.badNonce) := fun hh => ht.2 ⟨rfl, hh⟩
    rw [if_neg hne]

theorem retryGo_stop {σ : Type} (retr : Err → Bool)
    (f : σ → M (σ × Option Err)) (s : σ) (st st₁ : St) (s' : σ)
    (e' : Option Err) (hf : f s st = ((s', e'), st₁))
    (hr : ∀ eb, e' = some eb → retr eb = false) :
    ∀ n, retryGo retr f s n st = ((s', e'), st₁) := by
  intro n
  cases n with
  | zero => exact hf
  | succ n =>
    rw [retryGo]
    cases e' with
    | none => simp [hf]
    | some eb => simp [hf, hr eb rfl]

theorem retryGo_count_le (g : Call → Bool) (retr : Err → Bool) {σ : Type}
    (f : σ → M (σ × Option Err))
    (hf : ∀ s st, countCalls g (((f s st).2).trace) ≤ countCalls g st.trace + 1) :
    ∀ (n : Nat) (s : σ) (st : St),
      countCalls g ((retryGo retr f s n st).2.trace) ≤
        countCalls g st.trace + (n + 1) := by
  intro n
  induction n with
  | zero => intro s st; exact hf s st
  | succ n ih =>
    intro s st
    rw [retryGo]
    rcases hq : (f s st).1 with ⟨s₂, e₂⟩
    cases e₂ with
    | none =>
      simp only [hq]
      have h1 := hf s st
      omega
    | some e =>
      by_cases hr : retr e
      · simp only [hq, hr, if_true]
        have h1 := hf s st
        have h2 := ih s₂ ((f s st).2)
        omega
      · simp only [hq]
        rw [if_neg hr]
        try dsimp only
        have h1 := hf s st
        omega

theorem xdrLoop_badNonce (c : ClientOpts) (signers : List PrivateKey)
    (il : Option InvoiceList) (seq : Int) :
    ∀ (k : Nat) (pre rest : List (SubmitTransactionResult × Option Err))
      (s : SubmitTransactionResult × Int × Envelope) (st : St),
      st.env.stellarSubmits = pre ++ rest →
      pre.length = k + 1 →
      (∀ r ∈ pre, badNonceResp r) →
      (retryGo (fun e => e == Err.badNonce) (xdrStep c signers il seq)
          s k st).1.1.1
        = ((pre.getLast?).getD (SubmitTransactionResult.empty, none)).1
      ∧ (retryGo (fun e => e == Err.badNonce) (xdrStep c signers il seq)
          s k st).1.2 = some Err.badNonce
      ∧ submittedSeqNums ((retryGo (fun e => e == Err.badNonce)
          (xdrStep c signers il seq) s k st).2.trace)
        = submittedSeqNums st.trace ++
            (List.range (k + 1)).map (fun i : Nat => seq + s.2.1 + (i : Int))
      ∧ countCalls isInfoFetch ((retryGo (fun e => e == Err.badNonce)
          (xdrStep c signers il seq) s k st).2.trace)
        = countCalls isInfoFetch st.trace
      ∧ countCalls isStellarSubmit ((retryGo (fun e => e == Err.badNonce)
          (xdrStep c signers il seq) s k st).2.trace)
        = countCalls isStellarSubmit st.trace + (k + 1) := by
  intro k
  induction k with
  | zero =>
    intro pre rest s st happ hlen hall
    rcases pre with _ | ⟨r, pre'⟩
    · simp at hlen
    · have h0 : pre' = [] := by
        have h1 : pre'.length = 0 := by simpa using hlen
        exact List.eq_nil_of_length_eq_zero h1
      subst h0
      have hb : badNonceResp r := hall r (by simp)
      have hq := xdrStep_badNonce c signers il seq s st r rest
        (by simpa using happ) hb
      have h0go : retryGo (fun e => e == Err.badNonce)
          (xdrStep c signers il seq) s 0 st = xdrStep c signers il seq s st := rfl
      rw [h0go, hq]
      refine ⟨by simp, rfl, ?_, ?_, ?_⟩
      · have h1 : (List.range 1).map (fun i : Nat => seq + s.2.1 + (i : Int))
            = [seq + s.2.1] := by
          rw [show List.range 1 = [0] from rfl, List.map_cons, List.map_nil]
          norm_num
        rw [h1]
        simp [submittedSeqNums_append, submittedSeqNums, signingRound_seqNum]
      · exact countCalls_snoc_false _ _ _ rfl
      · exact countCalls_snoc_true _ _ _ rfl
  | succ k ih =>
    intro pre rest s st happ hlen hall
    rcases pre with _ | ⟨r, pre'⟩
    · simp at hlen
    · have hlen' : pre'.length = k + 1 := by simpa using hlen
      have hb : badNonceResp r := hall r (by simp)
      set sEnv := signingRound c signers { s.2.2 with seqNum := seq + s.2.1 }
        with hsEnv
      set st₂ : St := { st with
        env := { st.env with stellarSubmits := pre' ++ rest }
        trace := st.trace ++ [Call.submitStellar sEnv] } with hst₂
      have hq : xdrStep c signers il seq s st =
          (((r.1, s.2.1 + 1, sEnv), some Err.badNonce), st₂) :=
        xdrStep_badNonce c signers il seq s st r (pre' ++ rest)
          (by simpa using happ) hb
      have hbb : (Err.badNonce == Err.badNonce) = true := rfl
      rw [retryGo]
      simp only [hq, hbb, if_true]
      have happ' : st₂.env.stellarSubmits = pre' ++ rest := by rw [hst₂]
      have htr' : st₂.trace = st.trace ++ [Call.submitStellar sEnv] := by
        rw [hst₂]
      have ihh := ih pre' rest (r.1, s.2.1 + 1, sEnv) st₂ happ' hlen'
        (fun x hx => hall x (List.mem_cons_of_mem r hx))
      refine ⟨?_, ihh.2.1, ?_, ?_, ?_⟩
      · rw [ihh.1]
        rcases pre' with _ | ⟨p, ps⟩
        · simp at hlen'
        · rw [List.getLast?_cons_cons]
      · rw [ihh.2.2.1, htr', submittedSeqNums_append]
        have hone : submittedSeqNums [Call.submitStellar sEnv] =
            [seq + s.2.1] := by
          simp [submittedSeqNums, hsEnv, signingRound_seqNum]
        rw [hone, List.append_assoc]
        have hmap : (List.range (k + 1 + 1)).map
              (fun i : Nat => seq + s.2.1 + (i : Int))
            = (seq + s.2.1) ::
              (List.range (k + 1)).map
                (fun i : Nat => seq + (s.2.1 + 1) + (i : Int)) := by
          rw [List.range_succ_eq_map, List.map_cons, List.map_map]
          refine congrArg₂ List.cons (by push_cast; ring) ?_
          refine List.map_congr_left ?_
          intro i _
          show seq + s.2.1 + ((i + 1 : Nat) : Int) = seq + (s.2.1 + 1) + (i : Int)
          push_cast
          ring
        rw [hmap]
        rfl
      · rw [ihh.2.2.2.1, htr']
        exact countCalls_snoc_false _ _ _ rfl
      · rw [ihh.2.2.2.2, htr', countCalls_snoc_true _ _ _ rfl]
        omega

theorem rangeMapShift (seq o : Int) (n : Nat) :
    (List.range (n + 1 + 1)).map (fun i : Nat => seq + o + (i : Int))
      = (seq + o) ::
        (List.range (n + 1)).map (fun i : Nat => seq + (o + 1) + (i : Int)) := by
  rw [List.range_succ_eq_map, List.map_cons, List.map_map]
  refine congrArg₂ List.cons (by push_cast; ring) ?_
  refine List.map_congr_left ?_
  intro i _
  show seq + o + ((i + 1 : Nat) : Int) = seq + (o + 1) + (i : Int)
  push_cast
  ring

theorem rangeMapOne (seq o : Int) :
    (List.range 1).map (fun i : Nat => seq + o + (i : Int)) = [seq + o] := by
  rw [show List.range 1 = [0] from rfl, List.map_cons, List.map_nil]
  norm_num

theorem xdrLoop_terminal (c : ClientOpts) (signers : List PrivateKey)
    (il : Option InvoiceList) (seq : Int) :
    ∀ (pre : List (SubmitTransactionResult × Option Err))
      (term : SubmitTransactionResult × Option Err)
      (rest : List (SubmitTransactionResult × Option Err))
      (k : Nat) (s : SubmitTransactionResult × Int × Envelope) (st : St),
      st.env.stellarSubmits = pre ++ term :: rest →
      pre.length ≤ k →
      (∀ r ∈ pre, badNonceResp r) →
      terminalResp term →
      (retryGo (fun e => e == Err.badNonce) (xdrStep c signers il seq)
          s k st).1.1.1 = term.1
      ∧ (retryGo (fun e => e == Err.badNonce) (xdrStep c signers il seq)
          s k st).1.2 = term.2
      ∧ submittedSeqNums ((retryGo (fun e => e == Err.badNonce)
          (xdrStep c signers il seq) s k st).2.trace)
        = submittedSeqNums st.trace ++
            (List.range (pre.length + 1)).map
              (fun i : Nat => seq + s.2.1 + (i : Int))
      ∧ countCalls isInfoFetch ((retryGo (fun e => e == Err.badNonce)
          (xdrStep c signers il seq) s k st).2.trace)
        = countCalls isInfoFetch st.trace
      ∧ countCalls isStellarSubmit ((retryGo (fun e => e == Err.badNonce)
          (xdrStep c signers il seq) s k st).2.trace)
        = countCalls isStellarSubmit st.trace + (pre.length + 1) := by
  intro pre
  induction pre with
  | nil =>
    intro term rest k s st happ _hlen _hall ht
    set sEnv := signingRound c signers { s.2.2 with seqNum := seq + s.2.1 }
      with hsEnv
    set st₂ : St := { st with
      env := { st.env with stellarSubmits := rest }
      trace := st.trace ++ [Call.submitStellar sEnv] } with hst₂
    have hq : xdrStep c signers il seq s st =
        (((term.1, s.2.1, sEnv), term.2), st₂) :=
      xdrStep_terminal c signers il seq s st term rest (by simpa using happ) ht
    have hr : ∀ eb, term.2 = some eb →
        ((fun e => e == Err.badNonce) eb) = false := by
      intro eb heb
      have hne : eb ≠ Err.badNonce := by
        intro hh
        exact ht.1 (by rw [heb, hh])
      exact beq_eq_false_iff_ne.mpr hne
    have hgo := retryGo_stop (fun e => e == Err.badNonce)
      (xdrStep c signers il seq) s st st₂ (term.1, s.2.1, sEnv) term.2 hq hr k
    rw [hgo]
    have htr' : st₂.trace = st.trace ++ [Call.submitStellar sEnv] := by
      rw [hst₂]
    have hone : submittedSeqNums [Call.submitStellar sEnv] = [seq + s.2.1] := by
      simp [submittedSeqNums, hsEnv, signingRound_seqNum]
    refine ⟨rfl, rfl, ?_, ?_, ?_⟩
    · rw [htr', submittedSeqNums_append, hone]
      simp only [List.length_nil, Nat.zero_add, rangeMapOne]
    · rw [htr']
      exact countCalls_snoc_false _ _ _ rfl
    · rw [htr', countCalls_snoc_true _ _ _ rfl]
      simp only [List.length_nil]
  | cons r pre' ih =>
    intro term rest k s st happ hlen hall ht
    cases k with
    | zero => simp at hlen
    | succ k' =>
      have hlen' : pre'.length ≤ k' := by simpa using hlen
      have hb : badNonceResp r := hall r (by simp)
      set sEnv := signingRound c signers { s.2.2 with seqNum := seq + s.2.1 }
        with hsEnv
      set st₂ : St := { st with
        env := { st.env with stellarSubmits := pre' ++ term :: rest }
        trace := st.trace ++ [Call.submitStellar sEnv] } with hst₂
      have hq : xdrStep c signers il seq s st =
          (((r.1, s.2.1 + 1, sEnv), some Err.badNonce), st₂) :=
        xdrStep_badNonce c signers il seq s st r (pre' ++ term :: rest)
          (by simpa using happ) hb
      have hbb : (Err.badNonce == Err.badNonce) = true := rfl
      rw [retryGo]
      simp only [hq, hbb, if_true]
      have happ' : st₂.env.stellarSubmits = pre' ++ term :: rest := by rw [hst₂]
      have htr' : st₂.trace = st.trace ++ [Call.submitStellar sEnv] := by
        rw [hst₂]
      have hone : submittedSeqNums [Call.submitStellar sEnv] =
          [seq + s.2.1] := by
        simp [submittedSeqNums, hsEnv, signingRound_seqNum]
      have ihh := ih term rest k' (r.1, s.2.1 + 1, sEnv) st₂ happ' hlen'
        (fun x hx => hall x (List.mem_cons_of_mem r hx)) ht
      refine ⟨ihh.1, ihh.2.1, ?_, ?_, ?_⟩
      · rw [ihh.2.2.1, htr', submittedSeqNums_append, hone, List.append_assoc]
        simp only [List.length_cons]
        rw [rangeMapShift seq s.2.1 pre'.length]
        rfl
      · rw [ihh.2.2.2.1, htr']
        exact countCalls_snoc_false _ _ _ rfl
      · rw [ihh.2.2.2.2, htr', countCalls_snoc_true _ _ _ rfl]
        simp only [List.length_cons]
        omega

theorem signAndSubmitXDR_run (c : ClientOpts) (signers : List PrivateKey)
    (envelope : Envelope) (il : Option InvoiceList) (st0 : St)
    (info : StellarAccountInfo)
    (restInfos : List (StellarAccountInfo × Option Err))
    (hinfo : st0.env.stellarAccountInfos = (info, none) :: restInfos)
    (st1 : St)
    (hst1 : st1 = { st0 with
      env := { st0.env with stellarAccountInfos := restInfos }
      trace := st0.trace ++
        [Call.getStellarAccountInfo (signers.headD ⟨0, 0⟩).Public] }) :
    signAndSubmitXDR c signers envelope il st0 =
      (((retryGo (fun e => e == Err.badNonce)
            (xdrStep c signers il info.sequenceNumber)
            (SubmitTransactionResult.empty, 1, envelope)
            (c.maxSequenceRetries - 1) st1).1.1.1,
        (retryGo (fun e => e == Err.badNonce)
            (xdrStep c signers il info.sequenceNumber)
            (SubmitTransactionResult.empty, 1, envelope)
            (c.maxSequenceRetries - 1) st1).1.2),
       (retryGo (fun e => e == Err.badNonce)
            (xdrStep c signers il info.sequenceNumber)
            (SubmitTransactionResult.empty, 1, envelope)
            (c.maxSequenceRetries - 1) st1).2) := by
  have hg : getStellarAccountInfo (signers.headD ⟨0, 0⟩).Public st0 =
      ((info, none), st1) := by
    rw [hst1]
    exact getStellarAccountInfo_cons _ st0 info none restInfos hinfo
  unfold signAndSubmitXDR retryRetry
  simp only [run_bind, run_pure, hg]
  try dsimp only
  try rfl

/-- C4: the nonce-retry loop of a legacy submission makes at most
`maxSequenceRetries` attempts for any response stream; the signer's sequence
number is fetched exactly once, before the loop; `maxSequenceRetries`
consecutive BadNonce outcomes exhaust the loop, which then returns the last
BadNonce-mapped result with the `ErrBadNonce` error, having stamped the
sequence numbers `sequence + 1, sequence + 2, ...` (the offset starts at 1
and is incremented once per BadNonce outcome); and the first outcome that is
not BadNonce — success or any other error — ends the loop immediately,
after `(number of preceding BadNonce outcomes) + 1` submissions. -/
theorem spec_C4 (c : ClientOpts) (signers : List PrivateKey)
    (envelope : Envelope) (il : Option InvoiceList) (st0 : St)
    (info : StellarAccountInfo)
    (restInfos : List (StellarAccountInfo × Option Err))
    (hinfo : st0.env.stellarAccountInfos = (info, none) :: restInfos)
    (hmsr : 1 ≤ c.maxSequenceRetries) :
    countCalls isStellarSubmit
        ((signAndSubmitXDR c signers envelope il st0).2.trace)
      ≤ countCalls isStellarSubmit st0.trace + c.maxSequenceRetries
    ∧ countCalls isInfoFetch
        ((signAndSubmitXDR c signers envelope il st0).2.trace)
      = countCalls isInfoFetch st0.trace + 1
    ∧ (∀ (pre rest : List (SubmitTransactionResult × Option Err)),
        st0.env.stellarSubmits = pre ++ rest →
        pre.length = c.maxSequenceRetries →
        (∀ r ∈ pre, badNonceResp r) →
        (signAndSubmitXDR c signers envelope il st0).1
          = (((pre.getLast?).getD (SubmitTransactionResult.empty, none)).1,
             some Err.badNonce)
        ∧ submittedSeqNums
            ((signAndSubmitXDR c signers envelope il st0).2.trace)
          = submittedSeqNums st0.trace ++
            (List.range c.maxSequenceRetries).map
              (fun i : Nat => info.sequenceNumber + 1 + (i : Int))
        ∧ countCalls isStellarSubmit
            ((signAndSubmitXDR c signers envelope il st0).2.trace)
          = countCalls isStellarSubmit st0.trace + c.maxSequenceRetries)
    ∧ (∀ (pre : List (SubmitTransactionResult × Option Err))
        (term : SubmitTransactionResult × Option Err)
        (rest : List (SubmitTransactionResult × Option Err)),
        st0.env.stellarSubmits = pre ++ term :: rest →
        pre.length + 1 ≤ c.maxSequenceRetries →
        (∀ r ∈ pre, badNonceResp r) →
        terminalResp term →
        (signAndSubmitXDR c signers envelope il st0).1 = (term.1, term.2)
        ∧ submittedSeqNums
            ((signAndSubmitXDR c signers envelope il st0).2.trace)
          = submittedSeqNums st0.trace ++
            (List.range (pre.length + 1)).map
              (fun i : Nat => info.sequenceNumber + 1 + (i : Int))
        ∧ countCalls isStellarSubmit
            ((signAndSubmitXDR c signers envelope il st0).2.trace)
          = countCalls isStellarSubmit st0.trace + (pre.length + 1)) := by
  set st1 : St := { st0 with
    env := { st0.env with stellarAccountInfos := restInfos }
    trace := st0.trace ++
      [Call.getStellarAccountInfo (signers.headD ⟨0, 0⟩).Public] } with hst1
  have hrun := signAndSubmitXDR_run c signers envelope il st0 info restInfos
    hinfo st1 hst1
  have htr1 : st1.trace = st0.trace ++
      [Call.getStellarAccountInfo (signers.headD ⟨0, 0⟩).Public] := by
    rw [hst1]
  have hsub1 : st1.env.stellarSubmits = st0.env.stellarSubmits := by rw [hst1]
  have hcsub : countCalls isStellarSubmit st1.trace =
      countCalls isStellarSubmit st0.trace := by
    rw [htr1]; exact countCalls_snoc_false _ _ _ rfl
  have hcinfo : countCalls isInfoFetch st1.trace =
      countCalls isInfoFetch st0.trace + 1 := by
    rw [htr1]; exact countCalls_snoc_true _ _ _ rfl
  have hseq1 : submittedSeqNums st1.trace = submittedSeqNums st0.trace := by
    rw [htr1, submittedSeqNums_append]
    simp [submittedSeqNums]
  have hm : c.maxSequenceRetries - 1 + 1 = c.maxSequenceRetries := by omega
  simp only [hrun]
  refine ⟨?_, ?_, ?_, ?_⟩
  · have hb := retryGo_count_le isStellarSubmit (fun e => e == Err.badNonce)
      (xdrStep c signers il info.sequenceNumber)
      (fun s st => le_of_eq (xdrStep_submit_count c signers il
        info.sequenceNumber s st))
      (c.maxSequenceRetries - 1) (SubmitTransactionResult.empty, 1, envelope)
      st1
    omega
  · have hb := retryGo_inv
      (fun a b => countCalls isInfoFetch b.trace = countCalls isInfoFetch a.trace)
      (fun h1 h2 => h2.trans h1) (fun e => e == Err.badNonce)
      (xdrStep c signers il info.sequenceNumber)
      (fun s st => xdrStep_infoFetch c signers il info.sequenceNumber s st)
      (c.maxSequenceRetries - 1) (SubmitTransactionResult.empty, 1, envelope)
      st1
    omega
  · intro pre rest happ hlen hall
    have hA := xdrLoop_badNonce c signers il info.sequenceNumber
      (c.maxSequenceRetries - 1) pre rest
      (SubmitTransactionResult.empty, 1, envelope) st1
      (hsub1.trans happ) (by omega) hall
    try dsimp only at hA
    rw [hm] at hA
    refine ⟨?_, ?_, ?_⟩
    · rw [hA.1, hA.2.1]
    · rw [hA.2.2.1, hseq1]
    · rw [hA.2.2.2.2, hcsub]
  · intro pre term rest happ hlen hall ht
    have hB := xdrLoop_terminal c signers il info.sequenceNumber pre term rest
      (c.maxSequenceRetries - 1)
      (SubmitTransactionResult.empty, 1, envelope) st1
      (hsub1.trans happ) (by omega) hall ht
    try dsimp only at hB
    refine ⟨?_, ?_, ?_⟩
    · rw [hB.1, hB.2.1]
    · rw [hB.2.2.1, hseq1]
    · rw [hB.2.2.2.2, hcsub]

/-- C4 witness: with `maxSequenceRetries = 3`, a signer at sequence number 5
and three consecutive BadNonce outcomes, the loop submits exactly at
sequence numbers 6, 7, 8, fetches the account info once, and returns the
last BadNonce-mapped result with the BadNonce error. -/
theorem spec_C4_witness :
    1 ≤ testOpts.maxSequenceRetries
    ∧ (signAndSubmitXDR testOpts [⟨1, 2⟩] c4Envelope none c4St).1
        = (testBadNonceResult, some Err.badNonce)
    ∧ submittedSeqNums
        ((signAndSubmitXDR testOpts [⟨1, 2⟩] c4Envelope none c4St).2.trace)
      = [6, 7, 8]
    ∧ countCalls isInfoFetch
        ((signAndSubmitXDR testOpts [⟨1, 2⟩] c4Envelope none c4St).2.trace)
      = 1 := by
  have h := spec_C4 testOpts [⟨1, 2⟩] c4Envelope none c4St ⟨0, 5⟩ [] rfl
    (by decide)
  have h3 := h.2.2.1
    [(testBadNonceResult, none), (testBadNonceResult, none),
      (testBadNonceResult, none)] [] rfl rfl (by decide)
  refine ⟨by decide, h3.1.trans (by decide), h3.2.1.trans (by decide),
    h.2.1.trans (by decide)⟩
